import Mathlib

/-!
Verification of the slot-reservation and queue-progression core of the
Gabriel Family Clinic application.

The embedded code comes from the repository's database schema and stored
procedures (`generate_queue_number`, `book_appointment`, `advance_queue`,
the `update_slot_availability` trigger, the table constraints
`valid_capacity`, `unique_patient_slot`, `unique_queue_number`,
`valid_queue_sequence`) and from the execution-plan booking handler with its
`lock_time_slot` function.  Tables are lists of records, dates are day
numbers, timestamps are clock ticks, and every SQL transaction is a Lean
function from committed state to committed state: an aborted transaction
returns the state unchanged (nothing of it is committed).
-/

namespace GFC

/-- The `appointment_status` enum of the schema. -/
inductive AppointmentStatus where
  | pending
  | confirmed
  | reminder_sent
  | arrived
  | in_consultation
  | completed
  | no_show
  | cancelled
  | rescheduled
  deriving DecidableEq, Repr

/-- A row of `doctors`; only the columns the core reads.  `created_at` is the
creation order used by `ORDER BY created_at` in `generate_queue_number`. -/
structure Doctor where
  id : Nat
  created_at : Nat
  deriving DecidableEq, Repr

/-- A row of `time_slots`; only the columns the core reads and writes.
`booked_count` and `max_patients` are SQL INTEGERs, so they are `Int` here
(the `GREATEST(booked_count - 1, 0)` in the trigger is about preventing a
negative value). -/
structure TimeSlot where
  id : Nat
  doctor_id : Nat
  slot_date : Nat
  is_available : Bool
  is_blocked : Bool
  max_patients : Int
  booked_count : Int
  deriving DecidableEq, Repr

/-- A row of `appointments`; only the columns the core reads and writes.
`created_date` stores `DATE(created_at)`; `actual_start_time` is a clock
tick. -/
structure Appointment where
  id : Nat
  patient_id : Nat
  doctor_id : Nat
  time_slot_id : Nat
  queue_number : String
  queue_sequence : Nat
  queue_date : Nat
  status : AppointmentStatus
  created_date : Nat
  actual_start_time : Option Nat
  deriving DecidableEq, Repr

/-- A row of `queue_status` (one per doctor). -/
structure QueueStatus where
  doctor_id : Nat
  current_queue_number : Option String
  current_queue_sequence : Nat
  current_patient_id : Option Nat
  current_appointment_id : Option Nat
  last_called_at : Option Nat
  deriving DecidableEq, Repr

/-- The committed database state seen by the core, plus `today`
(`CURRENT_DATE`), a clock tick `now` (`CURRENT_TIMESTAMP`), and the id
generator for inserted appointment rows. -/
structure ClinicState where
  doctors : List Doctor
  time_slots : List TimeSlot
  appointments : List Appointment
  queue_statuses : List QueueStatus
  today : Nat
  now : Nat
  next_id : Nat
  deriving DecidableEq, Repr

/-- Postgres `LPAD(s, len, fill)`: left-pad to `len`, truncating on the right
when `s` is already longer. -/
def lpad (s : String) (len : Nat) (fill : Char) : String :=
  if len ≤ s.length then String.mk (s.toList.take len)
  else String.mk (List.replicate (len - s.length) fill) ++ s

/-- The prefix query of `generate_queue_number`:
`SELECT CHR(65 + (ROW_NUMBER() OVER (ORDER BY created_at) - 1)) INTO v_prefix
FROM doctors WHERE id = p_doctor_id`.  The window function runs after the
`WHERE` clause, so the window holds only the rows of this one doctor, and
`SELECT INTO` keeps the first result row, whose `ROW_NUMBER` is 1.  `none`
when the doctor does not exist (`SELECT INTO` then leaves `v_prefix` NULL). -/
def doctor_queue_letter (doctors : List Doctor) (p_doctor_id : Nat) : Option Char :=
  match (doctors.filter (fun d => d.id == p_doctor_id)).enum.head? with
  | none => none
  | some (i, _) => some (Char.ofNat (65 + (i + 1) - 1))

/-- The sequence query of `generate_queue_number`:
`SELECT COALESCE(MAX(queue_sequence), 0) + 1 FROM appointments WHERE
doctor_id = p_doctor_id AND DATE(created_at) = p_date`.  The filter is on the
creation date of the appointment rows, not on their `queue_date`. -/
def next_queue_sequence (appointments : List Appointment) (p_doctor_id p_date : Nat) : Nat :=
  (((appointments.filter
      (fun a => a.doctor_id == p_doctor_id && a.created_date == p_date)).map
        (fun a => a.queue_sequence)).foldl max 0) + 1

/-- `generate_queue_number(p_doctor_id, p_date)`: the doctor letter followed
by `LPAD(v_sequence::TEXT, 3, '0')`; `none` when the doctor row is missing
(the NULL prefix makes the concatenation NULL). -/
def generate_queue_number (doctors : List Doctor) (appointments : List Appointment)
    (p_doctor_id p_date : Nat) : Option String :=
  match doctor_queue_letter doctors p_doctor_id with
  | none => none
  | some c =>
      some (String.mk [c] ++
        lpad (toString (next_queue_sequence appointments p_doctor_id p_date)) 3 '0')

/-- The trailing maximal run of digit characters of a string, as in
`SUBSTRING(v_queue_number FROM '\d+$')`. -/
def trailing_digits (s : String) : List Char :=
  (s.toList.reverse.takeWhile Char.isDigit).reverse

/-- Decimal value of a digit string, as in `CAST(... AS INTEGER)` (the cast
argument is always a nonempty digit run here). -/
def digits_to_nat (cs : List Char) : Nat :=
  cs.foldl (fun acc c => acc * 10 + (c.toNat - 48)) 0

/-- The three `appointments` table constraints the insert of
`book_appointment` can hit: `unique_patient_slot (patient_id, time_slot_id)`,
`unique_queue_number (doctor_id, queue_date, queue_number)` and
`valid_queue_sequence CHECK (queue_sequence > 0)`. -/
def appointment_insert_ok (appointments : List Appointment) (a : Appointment) : Bool :=
  (appointments.all (fun b =>
      !(b.patient_id == a.patient_id && b.time_slot_id == a.time_slot_id))) &&
  (appointments.all (fun b =>
      !(b.doctor_id == a.doctor_id && b.queue_date == a.queue_date &&
        b.queue_number == a.queue_number))) &&
  decide (0 < a.queue_sequence)

/-- The `TG_OP = 'INSERT'` branch of the `update_slot_availability` trigger:
`UPDATE time_slots SET is_available = FALSE, booked_count = booked_count + 1
WHERE id = NEW.time_slot_id`.  Postgres re-evaluates the table's CHECK
constraints on every updated row, so both `valid_capacity CHECK
(booked_count <= max_patients)` and `future_slots_only CHECK (slot_date >=
CURRENT_DATE)` must hold for the updated slot row; `none` when either check
rejects it (the enclosing transaction aborts) — in particular any update of
a slot row whose date has passed aborts, since `CURRENT_DATE` has moved. -/
def slot_insert_trigger (slots : List TimeSlot) (slot_id today : Nat) :
    Option (List TimeSlot) :=
  if slots.all (fun t => !(t.id == slot_id) ||
      (decide (today ≤ t.slot_date) && decide (t.booked_count + 1 ≤ t.max_patients))) then
    some (slots.map (fun t =>
      if t.id == slot_id then
        { t with is_available := false, booked_count := t.booked_count + 1 }
      else t))
  else none

/-- The status transitions on which the `TG_OP = 'UPDATE'` branch of
`update_slot_availability` fires: `OLD.status NOT IN ('cancelled','no_show')
AND NEW.status IN ('cancelled','no_show')`. -/
def releases_slot (st_old st_new : AppointmentStatus) : Bool :=
  !(st_old == .cancelled || st_old == .no_show) &&
  (st_new == .cancelled || st_new == .no_show)

/-- The freeing update of the trigger: `UPDATE time_slots SET is_available =
TRUE, booked_count = GREATEST(booked_count - 1, 0) WHERE id =
NEW.time_slot_id`, with the `valid_capacity` and `future_slots_only` checks
re-evaluated on the updated row; `none` on check failure (the transaction
aborts) — releasing a slot whose date has passed therefore aborts. -/
def slot_release_trigger (slots : List TimeSlot) (slot_id today : Nat) :
    Option (List TimeSlot) :=
  if slots.all (fun t => !(t.id == slot_id) ||
      (decide (today ≤ t.slot_date) &&
        decide (max (t.booked_count - 1) 0 ≤ t.max_patients))) then
    some (slots.map (fun t =>
      if t.id == slot_id then
        { t with is_available := true, booked_count := max (t.booked_count - 1) 0 }
      else t))
  else none

/-- One transaction doing `UPDATE appointments SET status = st WHERE id =
appt_id`, including the `AFTER UPDATE` row trigger `update_slot_availability`.
If no row matches, zero rows are updated and the trigger does not fire.  If
the trigger's slot update fails the `valid_capacity` check, the whole
transaction aborts and the committed state is unchanged. -/
def set_appointment_status (s : ClinicState) (appt_id : Nat)
    (st : AppointmentStatus) : ClinicState :=
  match s.appointments.find? (fun a => a.id == appt_id) with
  | none => s
  | some a =>
      let appointments := s.appointments.map (fun b =>
        if b.id == appt_id then { b with status := st } else b)
      if releases_slot a.status st then
        match slot_release_trigger s.time_slots a.time_slot_id s.today with
        | some ts => { s with appointments := appointments, time_slots := ts }
        | none => s
      else { s with appointments := appointments }

/-- The single error raised by `book_appointment`
(`RAISE EXCEPTION 'Slot is not available'`), plus the two constraint-level
aborts the insert can produce: a NULL `queue_number` (missing doctor row)
violating NOT NULL, and a violated table constraint or capacity check. -/
inductive BookError where
  | slot_not_available
  | null_queue_number
  | constraint_violation
  deriving DecidableEq, Repr

/-- `book_appointment(p_patient_id, p_doctor_id, p_slot_id, ...)`: locks the
slot row (`FOR UPDATE NOWAIT`; transactions on one slot therefore serialize,
so one atomic step per call), raises `'Slot is not available'` when the row
is missing, unavailable or blocked, generates the queue number, extracts
`v_queue_sequence := CAST(SUBSTRING(v_queue_number FROM '\d+$') AS INTEGER)`,
and inserts the appointment row with `status = 'confirmed'` and `queue_date =
v_slot.slot_date`; the insert fires `update_slot_availability`.  The function
performs no check that the slot belongs to `p_doctor_id` and no check of
`slot_date` against `CURRENT_DATE`. -/
def book_appointment (s : ClinicState) (p_patient_id p_doctor_id p_slot_id : Nat) :
    Except BookError (ClinicState × Appointment) :=
  match s.time_slots.find? (fun t => t.id == p_slot_id) with
  | none => .error .slot_not_available
  | some v_slot =>
      if !v_slot.is_available || v_slot.is_blocked then .error .slot_not_available
      else
        match generate_queue_number s.doctors s.appointments p_doctor_id v_slot.slot_date with
        | none => .error .null_queue_number
        | some v_queue_number =>
            let v_queue_sequence := digits_to_nat (trailing_digits v_queue_number)
            let v_appointment : Appointment :=
              { id := s.next_id
                patient_id := p_patient_id
                doctor_id := p_doctor_id
                time_slot_id := p_slot_id
                queue_number := v_queue_number
                queue_sequence := v_queue_sequence
                queue_date := v_slot.slot_date
                status := .confirmed
                created_date := s.today
                actual_start_time := none }
            if appointment_insert_ok s.appointments v_appointment then
              match slot_insert_trigger s.time_slots p_slot_id s.today with
              | some ts =>
                  .ok ({ s with appointments := s.appointments ++ [v_appointment],
                                time_slots := ts,
                                next_id := s.next_id + 1 }, v_appointment)
              | none => .error .constraint_violation
            else .error .constraint_violation

/-- `ORDER BY queue_sequence LIMIT 1` over a result list: the first row of
minimal `queue_sequence` (SQL leaves the order among equal keys open; any
returned row has minimal sequence). -/
def order_by_sequence_limit1 : List Appointment → Option Appointment
  | [] => none
  | a :: rest =>
      some (rest.foldl
        (fun b c => if c.queue_sequence < b.queue_sequence then c else b) a)

/-- The `SELECT` of `advance_queue`: `SELECT * FROM appointments WHERE
doctor_id = p_doctor_id AND queue_date = CURRENT_DATE AND status = 'arrived'
ORDER BY queue_sequence LIMIT 1`.  Plain `SELECT`, no `FOR UPDATE`. -/
def advance_select (s : ClinicState) (p_doctor_id : Nat) : Option Appointment :=
  order_by_sequence_limit1 (s.appointments.filter (fun a =>
    a.doctor_id == p_doctor_id && a.queue_date == s.today && a.status == .arrived))

/-- The two `UPDATE`s of `advance_queue`, applied with the appointment record
`v_next` as it was read: `UPDATE appointments SET status = 'in_consultation',
actual_start_time = CURRENT_TIMESTAMP WHERE id = v_next.id` (the
`update_slot_availability` trigger fires but its freeing branch needs
`NEW.status IN ('cancelled','no_show')`, so it changes nothing), then
`UPDATE queue_status SET ... WHERE doctor_id = p_doctor_id RETURNING *`. -/
def advance_apply (s : ClinicState) (p_doctor_id : Nat) (v_next : Appointment) :
    ClinicState × Option QueueStatus :=
  let appointments := s.appointments.map (fun b =>
    if b.id == v_next.id then
      { b with status := .in_consultation, actual_start_time := some s.now }
    else b)
  let queue_statuses := s.queue_statuses.map (fun q =>
    if q.doctor_id == p_doctor_id then
      { q with current_queue_number := some v_next.queue_number,
               current_queue_sequence := v_next.queue_sequence,
               current_patient_id := some v_next.patient_id,
               current_appointment_id := some v_next.id,
               last_called_at := some s.now }
    else q)
  ({ s with appointments := appointments, queue_statuses := queue_statuses,
            now := s.now + 1 },
   queue_statuses.find? (fun q => q.doctor_id == p_doctor_id))

/-- `advance_queue(p_doctor_id)` run as one serialized transaction: when no
`'arrived'` row exists it does `RAISE NOTICE 'No patients in queue'` (a
notice, not an error) and `RETURN NULL` without touching any row. -/
def advance_queue (s : ClinicState) (p_doctor_id : Nat) :
    ClinicState × Option QueueStatus :=
  match advance_select s p_doctor_id with
  | none => (s, none)
  | some v_next => advance_apply s p_doctor_id v_next

/-- One interleaving of two concurrent `advance_queue` transactions for
doctor `d` under READ COMMITTED: both `SELECT`s run against the same
committed state before either transaction's `UPDATE`s commit (the function
takes no lock, so nothing prevents this schedule); then the first
transaction's updates commit, then the second's.  Returns the two selected
rows and the two successive committed states. -/
def advance_race (s : ClinicState) (d : Nat) :
    Option Appointment × Option Appointment × ClinicState × ClinicState :=
  let r1 := advance_select s d
  let r2 := advance_select s d
  let s1 := match r1 with
    | some a => (advance_apply s d a).1
    | none => s
  let s2 := match r2 with
    | some a => (advance_apply s1 d a).1
    | none => s1
  (r1, r2, s1, s2)

/-- One transaction doing a bare `INSERT INTO appointments` of the row `a`,
with the table constraints and the `AFTER INSERT` branch of
`update_slot_availability` (including its `valid_capacity` check); an
aborting constraint leaves the committed state unchanged. -/
def insert_appointment (s : ClinicState) (a : Appointment) : ClinicState :=
  if appointment_insert_ok s.appointments a then
    match slot_insert_trigger s.time_slots a.time_slot_id s.today with
    | some ts => { s with appointments := s.appointments ++ [a], time_slots := ts }
    | none => s
  else s

/-- An event processed by the `manage_slot_availability` trigger: an
appointment insert or an appointment status update. -/
inductive DbStep where
  | ins (a : Appointment)
  | upd (appt_id : Nat) (st : AppointmentStatus)
  deriving Repr

/-- Run one trigger-mediated event. -/
def db_step (s : ClinicState) : DbStep → ClinicState
  | .ins a => insert_appointment s a
  | .upd i st => set_appointment_status s i st

/-- Run a sequence of trigger-mediated events. -/
def db_run (s : ClinicState) (steps : List DbStep) : ClinicState :=
  steps.foldl db_step s

/-- Modelled from the spec: the `checkIn` operation (its endpoint is not
under src/): transition a `'confirmed'` appointment to `'arrived'` via the
same UPDATE path that fires `update_slot_availability`; any other current
status leaves the state unchanged. -/
def check_in_appointment (s : ClinicState) (appt_id : Nat) : ClinicState :=
  match s.appointments.find? (fun a => a.id == appt_id) with
  | some a => if a.status == .confirmed then set_appointment_status s appt_id .arrived else s
  | none => s

/-- Modelled from the spec: the `complete` operation (its endpoint is not
under src/): transition an `'in_consultation'` appointment to
`'completed'`. -/
def complete_appointment (s : ClinicState) (appt_id : Nat) : ClinicState :=
  match s.appointments.find? (fun a => a.id == appt_id) with
  | some a =>
      if a.status == .in_consultation then set_appointment_status s appt_id .completed else s
  | none => s

/-- Modelled from the spec: the `cancel` operation itself (no cancel endpoint
is under src/; only the slot-availability trigger it fires is): set the
appointment's status to `'cancelled'` through the UPDATE path, which fires
`update_slot_availability`. -/
def cancel_appointment (s : ClinicState) (appt_id : Nat) : ClinicState :=
  set_appointment_status s appt_id .cancelled

/-- Modelled from the spec: the `markNoShow` operation (no endpoint under
src/): set the status to `'no_show'` through the UPDATE path; the trigger's
guard makes re-marking a terminal appointment a no-op on the slot. -/
def mark_no_show_appointment (s : ClinicState) (appt_id : Nat) : ClinicState :=
  set_appointment_status s appt_id .no_show

/-- One call of the core's public operations, each a single serialized
transaction. -/
inductive ApiStep where
  | book (patient_id doctor_id slot_id : Nat)
  | check_in (appt_id : Nat)
  | advance (doctor_id : Nat)
  | complete (appt_id : Nat)
  | cancel (appt_id : Nat)
  | mark_no_show (appt_id : Nat)
  deriving Repr

/-- Run one public operation; a failed `book` commits nothing. -/
def api_step (s : ClinicState) : ApiStep → ClinicState
  | .book p d sid =>
      match book_appointment s p d sid with
      | .ok (s2, _) => s2
      | .error _ => s
  | .check_in i => check_in_appointment s i
  | .advance d => (advance_queue s d).1
  | .complete i => complete_appointment s i
  | .cancel i => cancel_appointment s i
  | .mark_no_show i => mark_no_show_appointment s i

/-- Run a sequence of public operations (any serialization of any set of
calls). -/
def api_run (s : ClinicState) (steps : List ApiStep) : ClinicState :=
  steps.foldl api_step s

/-- An appointment still holds its slot claim unless its status is
`'cancelled'` or `'no_show'` (the statuses on which the trigger frees the
slot). -/
def active_status (st : AppointmentStatus) : Bool :=
  !(st == .cancelled || st == .no_show)

/-- Number of appointment rows referencing slot `slot_id` whose status is
neither `'cancelled'` nor `'no_show'`. -/
def active_refs (appointments : List Appointment) (slot_id : Nat) : Nat :=
  (appointments.filter (fun a => a.time_slot_id == slot_id && active_status a.status)).length

/-- Number of appointment rows referencing slot `slot_id` whose status is not
`'cancelled'` (the spec's "non-cancelled" reading, which counts `'no_show'`
rows as well). -/
def non_cancelled_refs (appointments : List Appointment) (slot_id : Nat) : Nat :=
  (appointments.filter (fun a =>
    a.time_slot_id == slot_id && !(a.status == .cancelled))).length

/-- The state invariant of the reservation core: primary keys are unique,
inserted ids are fresh, an available slot carries no active claim, and no
slot carries more than one active claim. -/
structure Inv (s : ClinicState) : Prop where
  slot_ids_nodup : (s.time_slots.map (fun t => t.id)).Nodup
  appt_ids_nodup : (s.appointments.map (fun a => a.id)).Nodup
  fresh_ids : ∀ a ∈ s.appointments, a.id < s.next_id
  avail_free : ∀ t ∈ s.time_slots, t.is_available = true →
    active_refs s.appointments t.id = 0
  at_most_one : ∀ t ∈ s.time_slots, active_refs s.appointments t.id ≤ 1

/-- Run the `p`-th patient-and-doctor request of a batch of reserve calls
against the one slot `slot_id`, in the given serialization order (the `FOR
UPDATE NOWAIT` row lock serializes all transactions touching one slot row);
returns the final state and, per call, `none` for success or the raised
error. -/
def run_reservations (s : ClinicState) (slot_id : Nat) :
    List (Nat × Nat) → ClinicState × List (Option BookError)
  | [] => (s, [])
  | (pid, did) :: rest =>
      match book_appointment s pid did slot_id with
      | .ok (s2, _) =>
          let r := run_reservations s2 slot_id rest
          (r.1, none :: r.2)
      | .error e =>
          let r := run_reservations s slot_id rest
          (r.1, some e :: r.2)

/- The execution-plan booking path (part_001): `lock_time_slot`, the
appointment insert, and the compensating unlock run as three separate
transactions, each committing on its own. -/

/-- `lock_time_slot(slot_id)` from the execution plan: one transaction that
selects the row `WHERE id = slot_id AND is_available = true FOR UPDATE
NOWAIT`, returns NULL when none is found, and otherwise sets `is_available =
false` and returns the row as read before the update.  The plan's schema has
`future_slots_only CHECK (slot_date >= CURRENT_DATE)`, re-evaluated on the
UPDATE: on a stale past-dated row the update — and with it the whole rpc —
aborts, which the caller sees exactly like the NULL result (`none` here):
nothing committed, handler answers 409. -/
def lock_time_slot (slots : List TimeSlot) (slot_id today : Nat) :
    Option (TimeSlot × List TimeSlot) :=
  match slots.find? (fun t => t.id == slot_id && t.is_available) with
  | none => none
  | some slot =>
      if slots.all (fun t => !(t.id == slot_id) || decide (today ≤ t.slot_date)) then
        some (slot, slots.map (fun t =>
          if t.id == slot_id then { t with is_available := false } else t))
      else none

/-- Modelled from the spec: `unlock_time_slot` (the handler's rollback rpc is
called but not defined under src/): set `is_available` back to true for the
slot row. -/
def unlock_time_slot (slots : List TimeSlot) (slot_id : Nat) : List TimeSlot :=
  slots.map (fun t => if t.id == slot_id then { t with is_available := true } else t)

/-- The `unique_patient_slot` constraint of the execution-plan schema, the
one the handler's insert can hit. -/
def v1_insert_ok (appointments : List Appointment) (a : Appointment) : Bool :=
  appointments.all (fun b =>
    !(b.patient_id == a.patient_id && b.time_slot_id == a.time_slot_id))

/-- Outcome of the `api/appointments/book` handler of the execution plan. -/
inductive HandlerResult where
  | conflict409
  | error500
  | ok (a : Appointment)
  deriving DecidableEq, Repr

/-- The `api/appointments/book` handler of the execution plan, as the list of
successive committed states (each observable by any other transaction)
together with the response.  First transaction: `lock_time_slot`; second: the
appointment insert (queue number and sequence are taken as arguments — the
`generateQueueNumber` helper the handler awaits is not under src/); on insert
failure a third, compensating transaction calls `unlock_time_slot`. -/
def book_handler (slots : List TimeSlot) (appointments : List Appointment)
    (today : Nat) (patient_id doctor_id slot_id : Nat) (queue_number : String)
    (queue_sequence : Nat) (appt_id : Nat) :
    List (List TimeSlot × List Appointment) × HandlerResult :=
  match lock_time_slot slots slot_id today with
  | none => ([(slots, appointments)], .conflict409)
  | some (slot, slots1) =>
      let a : Appointment :=
        { id := appt_id
          patient_id := patient_id
          doctor_id := doctor_id
          time_slot_id := slot_id
          queue_number := queue_number
          queue_sequence := queue_sequence
          queue_date := slot.slot_date
          status := .confirmed
          created_date := slot.slot_date
          actual_start_time := none }
      if v1_insert_ok appointments a then
        ([(slots, appointments), (slots1, appointments),
          (slots1, appointments ++ [a])], .ok a)
      else
        ([(slots, appointments), (slots1, appointments),
          (unlock_time_slot slots1 slot_id, appointments)], .error500)

/-- A committed state in which the slot is marked unavailable while no
appointment row references it — the partial state the spec says must never
be observable. -/
def orphaned_unavailable (slots : List TimeSlot) (appointments : List Appointment)
    (slot_id : Nat) : Bool :=
  (slots.any (fun t => t.id == slot_id && !t.is_available)) &&
  (appointments.all (fun a => !(a.time_slot_id == slot_id)))

/- Concrete scenario states used to evaluate the code at explicit inputs.
All are built from ordinary clinic data: one or two doctors, capacity-1 or
capacity-2 slots, and the operations of the core. -/

/-- Day 4; doctor 1 has two capacity-1 slots on day 5.  Used for the
advance-booking scenario. -/
def c2_s0 : ClinicState :=
  { doctors := [⟨1, 0⟩]
    time_slots := [⟨10, 1, 5, true, false, 1, 0⟩, ⟨11, 1, 5, true, false, 1, 0⟩]
    appointments := []
    queue_statuses := [⟨1, none, 0, none, none, none⟩]
    today := 4, now := 0, next_id := 0 }

/-- Patient 1 books slot 10 (for day 5) on day 4, and the clock then moves to
day 5: the committed advance booking holds queue_date 5 but creation date 4. -/
def c2_s1 : ClinicState :=
  match book_appointment c2_s0 1 1 10 with
  | .ok (s, _) => { s with today := 5 }
  | .error _ => c2_s0

/-- Day 5; doctor 1 has one capacity-1 slot (id 10) on day 5 and an empty
queue. -/
def c1_s0 : ClinicState :=
  { doctors := [⟨1, 0⟩]
    time_slots := [⟨10, 1, 5, true, false, 1, 0⟩]
    appointments := []
    queue_statuses := [⟨1, none, 0, none, none, none⟩]
    today := 5, now := 0, next_id := 0 }

/-- Patient 1 books slot 10, is marked a no-show (the trigger frees the
slot), and patient 2 then books the same slot. -/
def c1_s3 : ClinicState :=
  api_run c1_s0 [.book 1 1 10, .mark_no_show 0, .book 2 1 10]

/-- Day 5; slot 10 belongs to doctor 2 and is dated day 7.  The booking call
will come from doctor 1, who does not own it. -/
def c6_s0 : ClinicState :=
  { doctors := [⟨1, 0⟩, ⟨2, 1⟩]
    time_slots := [⟨10, 2, 7, true, false, 1, 0⟩]
    appointments := []
    queue_statuses := []
    today := 5, now := 0, next_id := 0 }

/-- Day 5; slot 10 is a stale row dated day 3 (created before day 3 and never
cleaned up, so still `is_available`).  Booking it makes the trigger's slot
UPDATE violate `future_slots_only`. -/
def c6b_s0 : ClinicState :=
  { doctors := [⟨1, 0⟩, ⟨2, 1⟩]
    time_slots := [⟨10, 2, 3, true, false, 1, 0⟩]
    appointments := []
    queue_statuses := []
    today := 5, now := 0, next_id := 0 }

/-- Day 5; doctor 1 has one capacity-2 slot (a group session), empty. -/
def c9_s0 : ClinicState :=
  { doctors := [⟨1, 0⟩]
    time_slots := [⟨10, 1, 5, true, false, 2, 0⟩]
    appointments := []
    queue_statuses := []
    today := 5, now := 0, next_id := 0 }

/-- The slot row after one successful booking of the capacity-2 slot. -/
def c9_slot_after : Option TimeSlot :=
  match book_appointment c9_s0 1 1 10 with
  | .ok (s2, _) => s2.time_slots.find? (fun t => t.id == 10)
  | .error _ => none

/-- Day 5; doctor 1 has exactly one appointment, checked in (`'arrived'`),
holding slot 10. -/
def c3_s0 : ClinicState :=
  { doctors := [⟨1, 0⟩]
    time_slots := [⟨10, 1, 5, false, false, 1, 1⟩]
    appointments := [⟨0, 1, 1, 10, "A001", 1, 5, .arrived, 5, none⟩]
    queue_statuses := [⟨1, none, 0, none, none, none⟩]
    today := 5, now := 0, next_id := 1 }

/-- The arrived appointment of `c3_s0`. -/
def c3_appt : Appointment := ⟨0, 1, 1, 10, "A001", 1, 5, .arrived, 5, none⟩

/-- The racing pair of advance calls on `c3_s0`. -/
def c3_race : Option Appointment × Option Appointment × ClinicState × ClinicState :=
  advance_race c3_s0 1

/-- One available capacity-1 slot for the execution-plan handler scenario. -/
def c4_slots : List TimeSlot := [⟨10, 1, 5, true, false, 1, 0⟩]

/-- The committed-state trace of one successful run of the execution-plan
booking handler on `c4_slots`, on day 5. -/
def c4_trace : List (List TimeSlot × List Appointment) :=
  (book_handler c4_slots [] 5 1 1 10 "A001" 1 0).1

/-- Two doctors; the queue-number generator will be asked for the second
one. -/
def c8_doctors : List Doctor := [⟨1, 0⟩, ⟨2, 1⟩]

/-- Two earlier appointments of doctor 2 created on day 5. -/
def c8_appointments : List Appointment :=
  [⟨0, 1, 2, 10, "A001", 1, 5, .confirmed, 5, none⟩,
   ⟨1, 2, 2, 11, "A002", 2, 5, .confirmed, 5, none⟩]

/-- Day 5; doctor 1 has two checked-in (`'arrived'`) appointments, sequences
1 and 2, on two slots. -/
def c3b_s0 : ClinicState :=
  { doctors := [⟨1, 0⟩]
    time_slots := [⟨10, 1, 5, false, false, 1, 1⟩, ⟨11, 1, 5, false, false, 1, 1⟩]
    appointments := [⟨0, 1, 1, 10, "A001", 1, 5, .arrived, 5, none⟩,
                     ⟨1, 2, 1, 11, "A002", 2, 5, .arrived, 5, none⟩]
    queue_statuses := [⟨1, none, 0, none, none, none⟩]
    today := 5, now := 0, next_id := 2 }

/-- The first (sequence 1) arrived appointment of `c3b_s0`. -/
def c3b_a0 : Appointment := ⟨0, 1, 1, 10, "A001", 1, 5, .arrived, 5, none⟩

/-- The second (sequence 2) arrived appointment of `c3b_s0`. -/
def c3b_a1 : Appointment := ⟨1, 2, 1, 11, "A002", 2, 5, .arrived, 5, none⟩

/-- Patient 1 already holds an appointment on slot 10, so a second insert for
the same patient and slot violates `unique_patient_slot`. -/
def c4_appts : List Appointment := [⟨7, 1, 1, 10, "A001", 1, 5, .confirmed, 5, none⟩]

/-- Day 6; a confirmed appointment still holds slot 10, whose date, day 3,
has passed (the patient simply never came and nothing was recorded).
Cancelling it makes the release trigger's slot UPDATE violate
`future_slots_only`, so the whole cancel transaction aborts. -/
def c7b_s0 : ClinicState :=
  { doctors := [⟨1, 0⟩]
    time_slots := [⟨10, 1, 3, false, false, 1, 1⟩]
    appointments := [⟨0, 1, 1, 10, "A001", 1, 3, .confirmed, 3, none⟩]
    queue_statuses := [⟨1, none, 0, none, none, none⟩]
    today := 6, now := 0, next_id := 1 }

/-- Day 5; doctor 1 has two booked capacity-1 slots and the two confirmed
appointments holding them. -/
def c7_s0 : ClinicState :=
  { doctors := [⟨1, 0⟩]
    time_slots := [⟨10, 1, 5, false, false, 1, 1⟩, ⟨11, 1, 5, false, false, 1, 1⟩]
    appointments := [⟨0, 1, 1, 10, "A001", 1, 5, .confirmed, 5, none⟩,
                     ⟨1, 2, 1, 11, "A002", 2, 5, .confirmed, 5, none⟩]
    queue_statuses := [⟨1, none, 0, none, none, none⟩]
    today := 5, now := 0, next_id := 2 }

/-- The committed state after the one successful booking on the capacity-2
slot of `c9_s0`. -/
def c9_s2 : ClinicState :=
  { doctors := [⟨1, 0⟩]
    time_slots := [⟨10, 1, 5, false, false, 2, 1⟩]
    appointments := [⟨0, 1, 1, 10, "A001", 1, 5, .confirmed, 5, none⟩]
    queue_statuses := []
    today := 5, now := 0, next_id := 1 }

/-- The appointment created by the booking on the capacity-2 slot. -/
def c9_appt : Appointment := ⟨0, 1, 1, 10, "A001", 1, 5, .confirmed, 5, none⟩

/-- A slot whose `booked_count` is already 0 while a confirmed appointment
still references it; cancelling that appointment fires the freeing branch of
the trigger on a zero count. -/
def c10_s0 : ClinicState :=
  { doctors := [⟨1, 0⟩]
    time_slots := [⟨10, 1, 5, false, false, 1, 0⟩]
    appointments := [⟨0, 1, 1, 10, "A001", 1, 5, .confirmed, 5, none⟩]
    queue_statuses := []
    today := 5, now := 0, next_id := 1 }

/- Helper lemmas shared by the claim proofs. -/

theorem length_le_one_eq {α : Type} {l : List α} (h : l.length ≤ 1)
    {a b : α} (ha : a ∈ l) (hb : b ∈ l) : a = b := by
  cases l with
  | nil => cases ha
  | cons x xs =>
    cases xs with
    | nil =>
      simp only [List.mem_singleton] at ha hb
      rw [ha, hb]
    | cons y ys => simp at h

theorem filter_map_length_eq {α : Type} (p : α → Bool) (f : α → α) {l : List α}
    (h : ∀ b ∈ l, p (f b) = p b) :
    ((l.map f).filter p).length = (l.filter p).length := by
  induction l with
  | nil => rfl
  | cons x xs ih =>
    have hx := h x (by simp)
    have ih2 := ih (fun b hb => h b (by simp [hb]))
    simp only [List.map_cons, List.filter_cons, hx]
    cases p x <;> simp [ih2]

theorem active_refs_append (l : List Appointment) (a : Appointment) (sid : Nat) :
    active_refs (l ++ [a]) sid =
      active_refs l sid +
        (if a.time_slot_id == sid && active_status a.status then 1 else 0) := by
  simp only [active_refs, List.filter_append, List.length_append, List.filter_cons,
    List.filter_nil]
  cases h : (a.time_slot_id == sid && active_status a.status) <;> simp [h]

theorem active_refs_map_eq (l : List Appointment) (f : Appointment → Appointment) (sid : Nat)
    (h : ∀ b ∈ l, ((f b).time_slot_id == sid && active_status (f b).status) =
                  (b.time_slot_id == sid && active_status b.status)) :
    active_refs (l.map f) sid = active_refs l sid :=
  filter_map_length_eq _ f h

theorem find?_slot_update (l : List TimeSlot) (sid : Nat) (g : TimeSlot → TimeSlot)
    (hg : ∀ u, (g u).id = u.id) :
    ((l.map (fun u => if u.id == sid then g u else u)).find? (fun u => u.id == sid)) =
      (l.find? (fun u => u.id == sid)).map g := by
  induction l with
  | nil => rfl
  | cons x xs ih =>
    simp only [List.map_cons]
    by_cases hx : (x.id == sid) = true
    · rw [if_pos hx,
        List.find?_cons_of_pos (p := fun (u : TimeSlot) => u.id == sid) _
          (show ((g x).id == sid) = true by rw [hg]; exact hx),
        List.find?_cons_of_pos (p := fun (u : TimeSlot) => u.id == sid) _ hx]
      rfl
    · rw [if_neg hx,
        List.find?_cons_of_neg (p := fun (u : TimeSlot) => u.id == sid) _
          (by simpa using hx),
        List.find?_cons_of_neg (p := fun (u : TimeSlot) => u.id == sid) _
          (by simpa using hx)]
      exact ih

theorem book_ok_inv {s : ClinicState} {p d sid : Nat} {s2 : ClinicState} {a : Appointment}
    (h : book_appointment s p d sid = .ok (s2, a)) :
    ∃ slot ts, s.time_slots.find? (fun t => t.id == sid) = some slot ∧
      slot.is_available = true ∧ slot.is_blocked = false ∧
      slot_insert_trigger s.time_slots sid s.today = some ts ∧
      a.time_slot_id = sid ∧ a.status = .confirmed ∧ a.id = s.next_id ∧
      s2 = { s with appointments := s.appointments ++ [a], time_slots := ts,
                    next_id := s.next_id + 1 } ∧
      s2.time_slots.find? (fun t => t.id == sid) =
        some { slot with is_available := false,
                         booked_count := slot.booked_count + 1 } := by
  unfold book_appointment at h
  split at h
  · cases h
  next v_slot hf =>
    split at h
    · cases h
    next hav =>
      have hav1 : v_slot.is_available = true := by
        cases hv : v_slot.is_available
        · simp [hv] at hav
        · rfl
      have hbl : v_slot.is_blocked = false := by
        cases hb : v_slot.is_blocked
        · rfl
        · simp [hb] at hav
      split at h
      · cases h
      next q hq =>
        dsimp only at h
        by_cases hins : appointment_insert_ok s.appointments
            { id := s.next_id, patient_id := p, doctor_id := d, time_slot_id := sid,
              queue_number := q, queue_sequence := digits_to_nat (trailing_digits q),
              queue_date := v_slot.slot_date, status := .confirmed,
              created_date := s.today, actual_start_time := none } = true
        · rw [if_pos hins] at h
          cases ht : slot_insert_trigger s.time_slots sid s.today with
          | none => rw [ht] at h; cases h
          | some ts =>
            have hts2 : ts = s.time_slots.map (fun u =>
                if u.id == sid then
                  { u with is_available := false, booked_count := u.booked_count + 1 }
                else u) := by
              unfold slot_insert_trigger at ht
              split at ht
              · injection ht with h2; exact h2.symm
              · cases ht
            rw [ht] at h
            simp only [Except.ok.injEq, Prod.mk.injEq] at h
            obtain ⟨hs2, ha⟩ := h
            refine ⟨v_slot, ts, hf, hav1, hbl, rfl, by rw [← ha], by rw [← ha],
              by rw [← ha], by rw [← hs2, ← ha], ?_⟩
            rw [← hs2]
            dsimp only
            rw [hts2,
              find?_slot_update s.time_slots sid
                (fun u => { u with is_available := false,
                                   booked_count := u.booked_count + 1 })
                (fun u => rfl),
              hf]
            rfl
        · rw [if_neg hins] at h
          cases h

theorem foldl_pick_mem (init : Appointment) (l : List Appointment) :
    (l.foldl (fun b c => if c.queue_sequence < b.queue_sequence then c else b) init) = init ∨
    (l.foldl (fun b c => if c.queue_sequence < b.queue_sequence then c else b) init) ∈ l := by
  induction l generalizing init with
  | nil => left; rfl
  | cons x xs ih =>
    simp only [List.foldl_cons]
    rcases ih (if x.queue_sequence < init.queue_sequence then x else init) with h | h
    · rw [h]
      by_cases hx : x.queue_sequence < init.queue_sequence
      · right; rw [if_pos hx]; exact List.mem_cons_self _ _
      · left; rw [if_neg hx]
    · right; exact List.mem_cons_of_mem _ h

theorem foldl_pick_le (init : Appointment) (l : List Appointment) :
    (l.foldl (fun b c => if c.queue_sequence < b.queue_sequence then c else b)
        init).queue_sequence ≤ init.queue_sequence ∧
    ∀ b ∈ l, (l.foldl (fun b c => if c.queue_sequence < b.queue_sequence then c else b)
        init).queue_sequence ≤ b.queue_sequence := by
  induction l generalizing init with
  | nil => exact ⟨le_refl _, by simp⟩
  | cons x xs ih =>
    simp only [List.foldl_cons]
    obtain ⟨h1, h2⟩ := ih (if x.queue_sequence < init.queue_sequence then x else init)
    constructor
    · refine le_trans h1 ?_
      by_cases hx : x.queue_sequence < init.queue_sequence
      · rw [if_pos hx]; exact le_of_lt hx
      · rw [if_neg hx]
    · intro b hb
      rcases List.mem_cons.mp hb with hbx | hb2
      · subst hbx
        refine le_trans h1 ?_
        by_cases hx : b.queue_sequence < init.queue_sequence
        · rw [if_pos hx]
        · rw [if_neg hx]; exact Nat.le_of_not_lt hx
      · exact h2 b hb2

theorem limit1_spec {l : List Appointment} {a : Appointment}
    (h : order_by_sequence_limit1 l = some a) :
    a ∈ l ∧ ∀ b ∈ l, a.queue_sequence ≤ b.queue_sequence := by
  cases l with
  | nil => cases h
  | cons x xs =>
    unfold order_by_sequence_limit1 at h
    injection h with h
    constructor
    · rcases foldl_pick_mem x xs with h2 | h2
      · rw [← h, h2]; exact List.mem_cons_self _ _
      · rw [← h]; exact List.mem_cons_of_mem _ h2
    · intro b hb
      obtain ⟨h1, h2⟩ := foldl_pick_le x xs
      rcases List.mem_cons.mp hb with hbx | hb2
      · subst hbx; rw [← h]; exact h1
      · rw [← h]; exact h2 b hb2

theorem advance_select_spec {s : ClinicState} {d : Nat} {a : Appointment}
    (h : advance_select s d = some a) :
    a ∈ s.appointments ∧ a.doctor_id = d ∧ a.queue_date = s.today ∧
    a.status = .arrived ∧
    ∀ b ∈ s.appointments, b.doctor_id = d → b.queue_date = s.today →
      b.status = .arrived → a.queue_sequence ≤ b.queue_sequence := by
  unfold advance_select at h
  obtain ⟨hmem, hmin⟩ := limit1_spec h
  obtain ⟨ha1, hpred⟩ := List.mem_filter.mp hmem
  simp only [Bool.and_eq_true, beq_iff_eq] at hpred
  refine ⟨ha1, hpred.1.1, hpred.1.2, hpred.2, ?_⟩
  intro b hb h1 h2 h3
  exact hmin b (List.mem_filter.mpr ⟨hb, by simp [h1, h2, h3]⟩)

theorem map_map_congr {α β : Type} (f : α → α) (g : α → β) (l : List α)
    (h : ∀ b, g (f b) = g b) : (l.map f).map g = l.map g := by
  induction l with
  | nil => rfl
  | cons x xs ih => simp only [List.map_cons, h, ih]

theorem releases_slot_eq_active (o n : AppointmentStatus) :
    releases_slot o n = (active_status o && !(active_status n)) := by
  cases o <;> cases n <;> rfl

theorem refs_pres_of_status {s : ClinicState} {i : Nat} {st : AppointmentStatus}
    {a : Appointment} (_hamem : a ∈ s.appointments)
    (huniq : ∀ b ∈ s.appointments, b.id = a.id → b = a) (hii : a.id = i) (sid : Nat)
    (hcase : (a.time_slot_id == sid) = false ∨ active_status st = active_status a.status) :
    active_refs (s.appointments.map (fun b =>
        if b.id == i then { b with status := st } else b)) sid
      = active_refs s.appointments sid := by
  apply active_refs_map_eq
  intro b hb
  by_cases hbid : (b.id == i) = true
  · have hba : b = a := huniq b hb (by rw [hii]; simpa using hbid)
    rw [if_pos hbid]
    show (b.time_slot_id == sid && active_status st)
        = (b.time_slot_id == sid && active_status b.status)
    rw [hba]
    rcases hcase with hts | hact
    · rw [hts]; simp
    · rw [hact]
  · rw [if_neg hbid]

theorem inv_map_status {s : ClinicState} (f : Appointment → Appointment)
    (qs : List QueueStatus) (n2 : Nat)
    (hid : ∀ b, (f b).id = b.id)
    (hrefs : ∀ sid, active_refs (s.appointments.map f) sid = active_refs s.appointments sid)
    (hinv : Inv s) :
    Inv { s with appointments := s.appointments.map f, queue_statuses := qs, now := n2 } := by
  refine ⟨hinv.slot_ids_nodup, ?_, ?_, ?_, ?_⟩
  · rw [show (s.appointments.map f).map (fun a => a.id) = s.appointments.map (fun a => a.id)
      from map_map_congr f _ _ hid]
    exact hinv.appt_ids_nodup
  · intro b hb
    obtain ⟨c, hc, hcb⟩ := List.mem_map.mp hb
    rw [← hcb, hid]
    exact hinv.fresh_ids c hc
  · intro t ht hav
    rw [hrefs]
    exact hinv.avail_free t ht hav
  · intro t ht
    rw [hrefs]
    exact hinv.at_most_one t ht

theorem inv_release_status {s : ClinicState} (f : Appointment → Appointment) (tsid : Nat)
    (hid : ∀ b, (f b).id = b.id)
    (hother : ∀ sid, sid ≠ tsid →
      active_refs (s.appointments.map f) sid = active_refs s.appointments sid)
    (hzero : (∃ u ∈ s.time_slots, u.id = tsid) → active_refs (s.appointments.map f) tsid = 0)
    {ts2 : List TimeSlot} (hts : slot_release_trigger s.time_slots tsid s.today = some ts2)
    (hinv : Inv s) :
    Inv { s with appointments := s.appointments.map f, time_slots := ts2 } := by
  have hts2 : ts2 = s.time_slots.map (fun u =>
      if u.id == tsid then
        { u with is_available := true, booked_count := max (u.booked_count - 1) 0 }
      else u) := by
    unfold slot_release_trigger at hts
    split at hts
    · injection hts with h2; exact h2.symm
    · cases hts
  subst hts2
  have hgid : ∀ u : TimeSlot, (if u.id == tsid then
      { u with is_available := true, booked_count := max (u.booked_count - 1) 0 }
      else u).id = u.id := by
    intro u
    by_cases hu : (u.id == tsid) = true
    · rw [if_pos hu]
    · rw [if_neg hu]
  refine ⟨?_, ?_, ?_, ?_, ?_⟩
  · dsimp only
    rw [map_map_congr (fun u => if u.id == tsid then
        { u with is_available := true, booked_count := max (u.booked_count - 1) 0 }
        else u) (fun t => t.id) s.time_slots hgid]
    exact hinv.slot_ids_nodup
  · dsimp only
    rw [map_map_congr f (fun a => a.id) s.appointments hid]
    exact hinv.appt_ids_nodup
  · intro b hb
    obtain ⟨c, hc, hcb⟩ := List.mem_map.mp hb
    rw [← hcb, hid]
    exact hinv.fresh_ids c hc
  · intro t ht hav
    obtain ⟨u, hu, hut⟩ := List.mem_map.mp ht
    by_cases huid : (u.id == tsid) = true
    · have htid : t.id = tsid := by rw [← hut, if_pos huid]; simpa using huid
      rw [htid]
      exact hzero ⟨u, hu, by simpa using huid⟩
    · have hte : t = u := by rw [← hut, if_neg huid]
      have htid : t.id ≠ tsid := by rw [hte]; simpa using huid
      rw [hother t.id htid, hte]
      apply hinv.avail_free u hu
      rw [← hte]
      exact hav
  · intro t ht
    obtain ⟨u, hu, hut⟩ := List.mem_map.mp ht
    by_cases huid : (u.id == tsid) = true
    · have htid : t.id = tsid := by rw [← hut, if_pos huid]; simpa using huid
      rw [htid, hzero ⟨u, hu, by simpa using huid⟩]
      exact Nat.zero_le 1
    · have hte : t = u := by rw [← hut, if_neg huid]
      have htid : t.id ≠ tsid := by rw [hte]; simpa using huid
      rw [hother t.id htid, hte]
      exact hinv.at_most_one u hu

theorem set_status_inv (s : ClinicState) (i : Nat) (st : AppointmentStatus)
    (hsafe : ∀ a, s.appointments.find? (fun b => b.id == i) = some a →
      active_status st = true → active_status a.status = true)
    (hinv : Inv s) : Inv (set_appointment_status s i st) := by
  unfold set_appointment_status
  cases hfa : s.appointments.find? (fun b => b.id == i) with
  | none => exact hinv
  | some a =>
    dsimp only
    have hamem : a ∈ s.appointments := List.mem_of_find?_eq_some hfa
    have haid : a.id = i := by have h2 := List.find?_some hfa; simpa using h2
    have huniq : ∀ b ∈ s.appointments, b.id = a.id → b = a := by
      intro b hb hbid
      exact List.inj_on_of_nodup_map hinv.appt_ids_nodup hb hamem hbid
    by_cases hact : active_status st = true
    · have hold : active_status a.status = true := hsafe a hfa hact
      have hrel : releases_slot a.status st = false := by
        rw [releases_slot_eq_active, hact]
        simp
      rw [if_neg (by simp [hrel])]
      exact inv_map_status _ _ _ (fun b => by
          by_cases hb : (b.id == i) = true
          · rw [if_pos hb]
          · rw [if_neg hb])
        (fun sid => refs_pres_of_status hamem huniq haid sid
          (Or.inr (by rw [hact, hold]))) hinv
    · have hstf : active_status st = false := by
        cases h2 : active_status st
        · rfl
        · exact absurd h2 hact
      by_cases holda : active_status a.status = true
      · have hrel : releases_slot a.status st = true := by
          rw [releases_slot_eq_active, holda, hstf]
          rfl
        rw [if_pos hrel]
        cases hts : slot_release_trigger s.time_slots a.time_slot_id s.today with
        | none => exact hinv
        | some ts2 =>
          apply inv_release_status _ a.time_slot_id (fun b => by
              by_cases hb : (b.id == i) = true
              · rw [if_pos hb]
              · rw [if_neg hb])
            (fun sid hsid => refs_pres_of_status hamem huniq haid sid
              (Or.inl (by simpa using (Ne.symm hsid))))
            ?_ hts hinv
          intro hex
          obtain ⟨u, hu, huid⟩ := hex
          show (List.filter _ _).length = 0
          rw [List.length_eq_zero, List.filter_eq_nil_iff]
          intro b' hb'
          obtain ⟨b, hb, hbeq⟩ := List.mem_map.mp hb'
          by_cases hbid : (b.id == i) = true
          · rw [← hbeq, if_pos hbid]
            simp [active_status] at hstf ⊢
            intro _
            exact hstf
          · rw [← hbeq, if_neg hbid]
            intro hpb
            have hbf : b ∈ s.appointments.filter (fun c =>
                c.time_slot_id == a.time_slot_id && active_status c.status) :=
              List.mem_filter.mpr ⟨hb, hpb⟩
            have haf : a ∈ s.appointments.filter (fun c =>
                c.time_slot_id == a.time_slot_id && active_status c.status) :=
              List.mem_filter.mpr ⟨hamem, by simp [holda]⟩
            have hle : (s.appointments.filter (fun c =>
                c.time_slot_id == a.time_slot_id && active_status c.status)).length ≤ 1 := by
              have h2 := hinv.at_most_one u hu
              rw [huid] at h2
              exact h2
            have hba : b = a := length_le_one_eq hle hbf haf
            rw [hba, haid] at hbid
            simp at hbid
      · have holdf : active_status a.status = false := by
          cases h2 : active_status a.status
          · rfl
          · exact absurd h2 holda
        have hrel : releases_slot a.status st = false := by
          rw [releases_slot_eq_active, holdf]
          rfl
        rw [if_neg (by simp [hrel])]
        exact inv_map_status _ _ _ (fun b => by
            by_cases hb : (b.id == i) = true
            · rw [if_pos hb]
            · rw [if_neg hb])
          (fun sid => refs_pres_of_status hamem huniq haid sid
            (Or.inr (by rw [hstf, holdf]))) hinv

theorem advance_inv (s : ClinicState) (d : Nat) (hinv : Inv s) :
    Inv (advance_queue s d).1 := by
  unfold advance_queue
  cases hsel : advance_select s d with
  | none => exact hinv
  | some v =>
    obtain ⟨hvmem, _hvd, _hvq, hvst, _hmin⟩ := advance_select_spec hsel
    unfold advance_apply
    dsimp only
    have huniq : ∀ b ∈ s.appointments, b.id = v.id → b = v := fun b hb hbid =>
      List.inj_on_of_nodup_map hinv.appt_ids_nodup hb hvmem hbid
    apply inv_map_status _ _ _ ?_ ?_ hinv
    · intro b
      by_cases hb : (b.id == v.id) = true
      · rw [if_pos hb]
      · rw [if_neg hb]
    · intro sid
      apply active_refs_map_eq
      intro b hb
      by_cases hbid : (b.id == v.id) = true
      · have hba : b = v := huniq b hb (by simpa using hbid)
        rw [if_pos hbid]
        show (b.time_slot_id == sid && active_status .in_consultation)
            = (b.time_slot_id == sid && active_status b.status)
        rw [hba, hvst]
        rfl
      · rw [if_neg hbid]

theorem book_inv {s : ClinicState} {p d sid : Nat} {s2 : ClinicState} {a : Appointment}
    (h : book_appointment s p d sid = .ok (s2, a)) (hinv : Inv s) : Inv s2 := by
  obtain ⟨slot, ts, hf, hav, _hbl, ht, hats, _hast, haid, hs2, _hfind2⟩ := book_ok_inv h
  subst hs2
  have hts2 : ts = s.time_slots.map (fun u =>
      if u.id == sid then
        { u with is_available := false, booked_count := u.booked_count + 1 }
      else u) := by
    unfold slot_insert_trigger at ht
    split at ht
    · injection ht with h2; exact h2.symm
    · cases ht
  subst hts2
  have hslotmem : slot ∈ s.time_slots := List.mem_of_find?_eq_some hf
  have hslotid : slot.id = sid := by
    have h2 := List.find?_some hf
    simpa using h2
  have hgid : ∀ u : TimeSlot, (if u.id == sid then
      { u with is_available := false, booked_count := u.booked_count + 1 }
      else u).id = u.id := by
    intro u
    by_cases hu : (u.id == sid) = true
    · rw [if_pos hu]
    · rw [if_neg hu]
  refine ⟨?_, ?_, ?_, ?_, ?_⟩
  · dsimp only
    rw [map_map_congr (fun u => if u.id == sid then
        { u with is_available := false, booked_count := u.booked_count + 1 }
        else u) (fun t => t.id) s.time_slots hgid]
    exact hinv.slot_ids_nodup
  · dsimp only
    rw [List.map_append, List.nodup_append]
    refine ⟨hinv.appt_ids_nodup, by simp, ?_⟩
    intro x hx hxa
    obtain ⟨c, hc, hcx⟩ := List.mem_map.mp hx
    have hxa2 : x = a.id := by simpa using hxa
    have hlt := hinv.fresh_ids c hc
    have hce : c.id = s.next_id := by rw [hcx, hxa2, haid]
    rw [hce] at hlt
    exact Nat.lt_irrefl _ hlt
  · dsimp only
    intro b hb
    rcases List.mem_append.mp hb with hb1 | hb2
    · exact Nat.lt_succ_of_lt (hinv.fresh_ids b hb1)
    · have hba : b = a := by simpa using hb2
      rw [hba, haid]
      exact Nat.lt_succ_self _
  · dsimp only
    intro t ht2 hav2
    obtain ⟨u, hu, hut⟩ := List.mem_map.mp ht2
    rw [active_refs_append]
    by_cases huid : (u.id == sid) = true
    · have hfalse : t.is_available = false := by rw [← hut, if_pos huid]
      rw [hfalse] at hav2
      cases hav2
    · have hte : t = u := by rw [← hut, if_neg huid]
      have hune : u.id ≠ sid := by simpa using huid
      have htsid : (a.time_slot_id == t.id) = false := by
        rw [hats, hte]
        simp [Ne.symm hune]
      rw [htsid]
      simp only [Bool.false_and, Bool.false_eq_true, if_false, Nat.add_zero]
      rw [hte]
      apply hinv.avail_free u hu
      rw [← hte]
      exact hav2
  · dsimp only
    intro t ht2
    obtain ⟨u, hu, hut⟩ := List.mem_map.mp ht2
    rw [active_refs_append]
    by_cases huid : (u.id == sid) = true
    · have htid : t.id = sid := by rw [← hut, if_pos huid]; simpa using huid
      have hz : active_refs s.appointments sid = 0 := by
        have h2 := hinv.avail_free slot hslotmem hav
        rw [hslotid] at h2
        exact h2
      rw [htid, hz]
      split <;> simp
    · have hte : t = u := by rw [← hut, if_neg huid]
      have hune : u.id ≠ sid := by simpa using huid
      have htsid : (a.time_slot_id == t.id) = false := by
        rw [hats, hte]
        simp [Ne.symm hune]
      rw [htsid]
      simp only [Bool.false_and, Bool.false_eq_true, if_false, Nat.add_zero]
      rw [hte]
      exact hinv.at_most_one u hu

theorem api_step_inv (s : ClinicState) (st : ApiStep) (hinv : Inv s) :
    Inv (api_step s st) := by
  cases st with
  | book p d sid =>
    dsimp only [api_step]
    cases hb : book_appointment s p d sid with
    | ok r =>
      obtain ⟨s2, a⟩ := r
      exact book_inv hb hinv
    | error e => exact hinv
  | check_in i =>
    dsimp only [api_step]
    unfold check_in_appointment
    cases hfa : s.appointments.find? (fun b => b.id == i) with
    | none => exact hinv
    | some a =>
      dsimp only
      by_cases hst : (a.status == AppointmentStatus.confirmed) = true
      · rw [if_pos hst]
        apply set_status_inv _ _ _ ?_ hinv
        intro a2 ha2 _
        rw [hfa] at ha2
        injection ha2 with ha3
        rw [← ha3]
        have h4 : a.status = .confirmed := by simpa using hst
        rw [h4]
        rfl
      · rw [if_neg hst]
        exact hinv
  | advance d =>
    dsimp only [api_step]
    exact advance_inv s d hinv
  | complete i =>
    dsimp only [api_step]
    unfold complete_appointment
    cases hfa : s.appointments.find? (fun b => b.id == i) with
    | none => exact hinv
    | some a =>
      dsimp only
      by_cases hst : (a.status == AppointmentStatus.in_consultation) = true
      · rw [if_pos hst]
        apply set_status_inv _ _ _ ?_ hinv
        intro a2 ha2 _
        rw [hfa] at ha2
        injection ha2 with ha3
        rw [← ha3]
        have h4 : a.status = .in_consultation := by simpa using hst
        rw [h4]
        rfl
      · rw [if_neg hst]
        exact hinv
  | cancel i =>
    dsimp only [api_step]
    unfold cancel_appointment
    apply set_status_inv _ _ _ ?_ hinv
    intro a2 _ hact
    simp [active_status] at hact
  | mark_no_show i =>
    dsimp only [api_step]
    unfold mark_no_show_appointment
    apply set_status_inv _ _ _ ?_ hinv
    intro a2 _ hact
    simp [active_status] at hact

theorem api_run_inv (s : ClinicState) (steps : List ApiStep) (hinv : Inv s) :
    Inv (api_run s steps) := by
  induction steps generalizing s with
  | nil => exact hinv
  | cons st rest ih =>
    simp only [api_run, List.foldl_cons]
    exact ih _ (api_step_inv s st hinv)

theorem book_fails_unavail {s : ClinicState} {sid : Nat} {u : TimeSlot}
    (hf : s.time_slots.find? (fun t => t.id == sid) = some u)
    (hun : u.is_available = false) (p d : Nat) :
    book_appointment s p d sid = .error .slot_not_available := by
  unfold book_appointment
  rw [hf]
  dsimp only
  rw [if_pos (by rw [hun]; rfl)]

theorem run_all_fail (s : ClinicState) (sid : Nat) (u : TimeSlot)
    (reqs : List (Nat × Nat))
    (hf : s.time_slots.find? (fun t => t.id == sid) = some u)
    (hun : u.is_available = false) :
    run_reservations s sid reqs =
      (s, reqs.map (fun _ => some BookError.slot_not_available)) := by
  induction reqs with
  | nil => rfl
  | cons r rest ih =>
    obtain ⟨p, d⟩ := r
    unfold run_reservations
    rw [book_fails_unavail hf hun p d]
    dsimp only
    rw [ih]
    rfl

theorem map_eq_self_of {α : Type} (h : α → α) (l : List α) (hp : ∀ u ∈ l, h u = u) :
    l.map h = l := by
  induction l with
  | nil => rfl
  | cons x xs ih =>
    simp only [List.map_cons]
    rw [hp x (List.mem_cons_self _ _), ih (fun u hu => hp u (List.mem_cons_of_mem _ hu))]

theorem unlock_after_lock (slots : List TimeSlot) (sid : Nat)
    (hall : ∀ u ∈ slots, u.id = sid → u.is_available = true) :
    unlock_time_slot (slots.map (fun t =>
      if t.id == sid then { t with is_available := false } else t)) sid = slots := by
  unfold unlock_time_slot
  rw [List.map_map]
  apply map_eq_self_of
  intro u hu
  show (fun t => if t.id == sid then { t with is_available := true } else t)
      (if u.id == sid then { u with is_available := false } else u) = u
  by_cases hx : (u.id == sid) = true
  · rw [if_pos hx]
    dsimp only
    rw [if_pos (show (({u with is_available := false} : TimeSlot).id == sid) = true from hx)]
    have hxa := hall u hu (by simpa using hx)
    cases u with
    | mk i di sd av bl mp bc =>
      dsimp only at hxa ⊢
      rw [← hxa]
  · rw [if_neg hx]
    dsimp only
    rw [if_neg hx]

theorem v1_insert_fails {appointments : List Appointment} {a b : Appointment}
    (hb : b ∈ appointments) (hp : b.patient_id = a.patient_id)
    (ht : b.time_slot_id = a.time_slot_id) :
    v1_insert_ok appointments a = false := by
  unfold v1_insert_ok
  cases hall : appointments.all (fun c =>
      !(c.patient_id == a.patient_id && c.time_slot_id == a.time_slot_id)) with
  | false => rfl
  | true =>
    exfalso
    have h2 := List.all_eq_true.mp hall b hb
    simp [hp, ht] at h2

theorem db_step_capacity (s : ClinicState) (stp : DbStep)
    (h : ∀ t ∈ s.time_slots, 0 ≤ t.booked_count ∧ t.booked_count ≤ t.max_patients) :
    ∀ t ∈ (db_step s stp).time_slots,
      0 ≤ t.booked_count ∧ t.booked_count ≤ t.max_patients := by
  cases stp with
  | ins a =>
    dsimp only [db_step]
    unfold insert_appointment
    by_cases hok : appointment_insert_ok s.appointments a = true
    · rw [if_pos hok]
      cases ht : slot_insert_trigger s.time_slots a.time_slot_id s.today with
      | none => exact h
      | some ts =>
        dsimp only
        unfold slot_insert_trigger at ht
        split at ht
        next hall =>
          injection ht with ht2
          intro t ht3
          rw [← ht2] at ht3
          obtain ⟨u, hu, hut⟩ := List.mem_map.mp ht3
          by_cases huid : (u.id == a.time_slot_id) = true
          · have hcap := List.all_eq_true.mp hall u hu
            rw [huid] at hcap
            simp only [Bool.not_true, Bool.false_or, Bool.and_eq_true,
              decide_eq_true_eq] at hcap
            rw [← hut, if_pos huid]
            constructor
            · show (0 : Int) ≤ u.booked_count + 1
              have h0 := (h u hu).1
              linarith
            · exact hcap.2
          · rw [← hut, if_neg huid]
            exact h u hu
        next => cases ht
    · rw [if_neg hok]
      exact h
  | upd i st =>
    dsimp only [db_step]
    unfold set_appointment_status
    cases hfa : s.appointments.find? (fun b => b.id == i) with
    | none => exact h
    | some a =>
      dsimp only
      by_cases hrel : releases_slot a.status st = true
      · rw [if_pos hrel]
        cases ht : slot_release_trigger s.time_slots a.time_slot_id s.today with
        | none => exact h
        | some ts =>
          dsimp only
          unfold slot_release_trigger at ht
          split at ht
          next =>
            injection ht with ht2
            intro t ht3
            rw [← ht2] at ht3
            obtain ⟨u, hu, hut⟩ := List.mem_map.mp ht3
            by_cases huid : (u.id == a.time_slot_id) = true
            · rw [← hut, if_pos huid]
              obtain ⟨h0, hc⟩ := h u hu
              constructor
              · show (0 : Int) ≤ max (u.booked_count - 1) 0
                exact le_max_right _ _
              · show max (u.booked_count - 1) 0 ≤ u.max_patients
                apply max_le
                · linarith
                · linarith
            · rw [← hut, if_neg huid]
              exact h u hu
          next => cases ht
      · rw [if_neg hrel]
        exact h

theorem book_wins {s : ClinicState} {sid : Nat} {slot : TimeSlot} (p d : Nat)
    (hf : s.time_slots.find? (fun t => t.id == sid) = some slot)
    (huniq : ∀ u ∈ s.time_slots, u.id = sid → u = slot)
    (hav : slot.is_available = true) (hbl : slot.is_blocked = false)
    (hcnt : slot.booked_count = 0) (hcap : slot.max_patients = 1)
    (hdate : s.today ≤ slot.slot_date)
    (hdoc : ∃ doc ∈ s.doctors, doc.id = d)
    (hdfresh : ∀ a ∈ s.appointments, a.doctor_id ≠ d)
    (hsfresh : ∀ a ∈ s.appointments, a.time_slot_id ≠ sid) :
    ∃ s2 a, book_appointment s p d sid = .ok (s2, a) ∧
      s2.time_slots.find? (fun t => t.id == sid) =
        some { slot with is_available := false,
                         booked_count := slot.booked_count + 1 } := by
  obtain ⟨doc, hdm, hdid⟩ := hdoc
  have hdw : doc ∈ s.doctors.filter (fun d2 => d2.id == d) :=
    List.mem_filter.mpr ⟨hdm, by simp [hdid]⟩
  obtain ⟨w, ws, hw⟩ := List.exists_cons_of_ne_nil (List.ne_nil_of_mem hdw)
  have hlet : doctor_queue_letter s.doctors d = some 'A' := by
    unfold doctor_queue_letter
    rw [hw]
    rfl
  have hfilnil : s.appointments.filter
      (fun a => a.doctor_id == d && a.created_date == slot.slot_date) = [] := by
    rw [List.filter_eq_nil_iff]
    intro a ha
    simp [hdfresh a ha]
  have hseq : next_queue_sequence s.appointments d slot.slot_date = 1 := by
    unfold next_queue_sequence
    rw [hfilnil]
    rfl
  have hgen : generate_queue_number s.doctors s.appointments d slot.slot_date
      = some "A001" := by
    unfold generate_queue_number
    rw [hlet]
    dsimp only
    rw [hseq]
    rfl
  have hinsok : appointment_insert_ok s.appointments
      { id := s.next_id, patient_id := p, doctor_id := d, time_slot_id := sid,
        queue_number := "A001",
        queue_sequence := digits_to_nat (trailing_digits "A001"),
        queue_date := slot.slot_date, status := .confirmed,
        created_date := s.today, actual_start_time := none } = true := by
    unfold appointment_insert_ok
    simp only [Bool.and_eq_true, List.all_eq_true, decide_eq_true_eq]
    refine ⟨⟨?_, ?_⟩, ?_⟩
    · intro b hb
      have h1 : (b.time_slot_id == sid) = false := by simpa using hsfresh b hb
      simp [h1]
    · intro b hb
      have h1 : (b.doctor_id == d) = false := by simpa using hdfresh b hb
      simp [h1]
    · decide
  have hall : (s.time_slots.all (fun t => !(t.id == sid) ||
      (decide (s.today ≤ t.slot_date) &&
        decide (t.booked_count + 1 ≤ t.max_patients)))) = true := by
    rw [List.all_eq_true]
    intro u hu
    show (!(u.id == sid) || (decide (s.today ≤ u.slot_date) &&
      decide (u.booked_count + 1 ≤ u.max_patients))) = true
    by_cases huid : (u.id == sid) = true
    · have hus : u = slot := huniq u hu (by simpa using huid)
      rw [hus, decide_eq_true hdate, Bool.true_and]
      have hd : (decide (slot.booked_count + 1 ≤ slot.max_patients)) = true := by
        rw [hcnt, hcap]
        rfl
      rw [hd, Bool.or_true]
    · have h2 : (u.id == sid) = false := by simpa using huid
      rw [h2]
      rfl
  have htrig : slot_insert_trigger s.time_slots sid s.today =
      some (s.time_slots.map (fun t => if t.id == sid then
        { t with is_available := false, booked_count := t.booked_count + 1 }
        else t)) := by
    unfold slot_insert_trigger
    rw [if_pos hall]
  refine ⟨{ s with
      appointments := s.appointments ++
        [{ id := s.next_id, patient_id := p, doctor_id := d, time_slot_id := sid,
           queue_number := "A001",
           queue_sequence := digits_to_nat (trailing_digits "A001"),
           queue_date := slot.slot_date, status := .confirmed,
           created_date := s.today, actual_start_time := none }],
      time_slots := s.time_slots.map (fun t => if t.id == sid then
        { t with is_available := false, booked_count := t.booked_count + 1 }
        else t),
      next_id := s.next_id + 1 },
    { id := s.next_id, patient_id := p, doctor_id := d, time_slot_id := sid,
      queue_number := "A001",
      queue_sequence := digits_to_nat (trailing_digits "A001"),
      queue_date := slot.slot_date, status := .confirmed,
      created_date := s.today, actual_start_time := none }, ?_, ?_⟩
  · unfold book_appointment
    rw [hf]
    dsimp only
    rw [if_neg (by rw [hav, hbl]; simp)]
    rw [hgen]
    dsimp only
    rw [if_pos hinsok, htrig]
  · dsimp only
    rw [find?_slot_update s.time_slots sid
      (fun t => { t with is_available := false, booked_count := t.booked_count + 1 })
      (fun u => rfl), hf]
    rfl

/- The claim theorems. -/

/-- C8: the claim says every reserve gets a doctor-specific letter prefix (a
distinct letter per doctor, e.g. 'B' for the second doctor) plus the
zero-padded sequence.  Evaluating the code at the failing input — the second
doctor by creation order, with two prior appointments — yields "A003", not
"B003": the `ROW_NUMBER() OVER (ORDER BY created_at)` is computed after
`WHERE id = p_doctor_id` has filtered the window down to the one requested
doctor, so the row number is always 1 and the letter always 'A', against the
code's own comment "A for first doctor, B for second, etc.". -/
theorem claim_C8_failing_eval :
    generate_queue_number c8_doctors c8_appointments 2 5 = some "A003" ∧
    doctor_queue_letter c8_doctors 2 = some 'A' ∧ ('A' : Char) ≠ 'B' := by
  refine ⟨by decide, by decide, by decide⟩

/-- C2: the claim says each new reservation's sequence equals the maximum
existing sequence for that doctor and day plus one, and no reservation ever
fails on a duplicate number.  Evaluating the code at the failing input: an
advance booking made on day 4 for day 5 holds queue_date 5, sequence 1, but
its creation date is 4; on day 5 the generator's `DATE(created_at) = p_date`
filter matches no rows, so it again produces sequence 1 (the claim expects
max 1 + 1 = 2), and the insert is rejected by the `unique_queue_number`
constraint. -/
theorem claim_C2_failing_eval :
    c2_s1.appointments.map
        (fun a => (a.queue_number, a.queue_sequence, a.queue_date, a.created_date)) =
      [("A001", 1, 5, 4)] ∧
    ((c2_s1.appointments.filter
        (fun a => a.doctor_id == 1 && a.queue_date == 5)).map
          (fun a => a.queue_sequence)).foldl max 0 = 1 ∧
    next_queue_sequence c2_s1.appointments 1 5 = 1 ∧
    book_appointment c2_s1 2 1 11 = .error .constraint_violation := by
  refine ⟨by decide, by decide, by decide, by rfl⟩

/-- C9 counterexample: the claim says reserve flips `is_available` to false
exactly when `booked_count` reaches the slot's capacity.  On the capacity-2
slot, one booking leaves `booked_count = 1 < 2 = max_patients`, yet
`is_available` is already false: the trigger sets it unconditionally on every
insert. -/
theorem claim_C9_counterexample :
    c9_slot_after = some ⟨10, 1, 5, false, false, 2, 1⟩ := by
  decide

/-- C9 (amended): every successful reserve increments the slot's
`booked_count` by one and sets `is_available` to false unconditionally,
regardless of remaining capacity; the `valid_capacity` check guarantees the
incremented count still fits `max_patients`. -/
theorem claim_C9_amended (s : ClinicState) (p d sid : Nat) (t : TimeSlot)
    (s2 : ClinicState) (a : Appointment)
    (hfind : s.time_slots.find? (fun u => u.id == sid) = some t)
    (hok : book_appointment s p d sid = .ok (s2, a)) :
    s2.time_slots.find? (fun u => u.id == sid) =
      some { t with is_available := false, booked_count := t.booked_count + 1 } ∧
    t.booked_count + 1 ≤ t.max_patients ∧ a.time_slot_id = sid := by
  obtain ⟨slot, ts, hf, _, _, ht, hats, _, _, _, hfind2⟩ := book_ok_inv hok
  rw [hfind] at hf
  injection hf with hf2
  subst hf2
  refine ⟨hfind2, ?_, hats⟩
  unfold slot_insert_trigger at ht
  split at ht
  next hall =>
    have hmem := List.mem_of_find?_eq_some hfind
    have htid : (t.id == sid) = true := by simpa using List.find?_some hfind
    have h2 := List.all_eq_true.mp hall t hmem
    rw [htid] at h2
    simp only [Bool.not_true, Bool.false_or, Bool.and_eq_true,
      decide_eq_true_eq] at h2
    exact h2.2
  next => cases ht

/-- C9 witness: the capacity-2 booking instantiates the amended claim. -/
theorem claim_C9_witness :
    c9_s2.time_slots.find? (fun u => u.id == 10) =
      some ⟨10, 1, 5, false, false, 2, 1⟩ ∧
    ((⟨10, 1, 5, true, false, 2, 0⟩ : TimeSlot).booked_count + 1 ≤
      (⟨10, 1, 5, true, false, 2, 0⟩ : TimeSlot).max_patients) := by
  have h := claim_C9_amended c9_s0 1 1 10 ⟨10, 1, 5, true, false, 2, 0⟩ c9_s2 c9_appt
    (by rfl) (by rfl)
  exact ⟨h.1, h.2.1⟩

/-- C10: for every sequence of appointment inserts and status updates
processed by the slot-availability trigger, each slot's `booked_count` stays
between 0 and `max_patients`: the freeing branch decrements with
`GREATEST(booked_count - 1, 0)` and the `valid_capacity` check bounds the
incrementing branch. -/
theorem claim_C10 (s : ClinicState) (steps : List DbStep)
    (h : ∀ t ∈ s.time_slots, 0 ≤ t.booked_count ∧ t.booked_count ≤ t.max_patients) :
    ∀ t ∈ (db_run s steps).time_slots,
      0 ≤ t.booked_count ∧ t.booked_count ≤ t.max_patients := by
  induction steps generalizing s with
  | nil => exact h
  | cons stp rest ih =>
    simp only [db_run, List.foldl_cons]
    exact ih _ (db_step_capacity s stp h)

/-- C10 witness: cancelling the appointment of a slot whose count is already
0 fires the freeing branch; the `GREATEST` keeps the count at 0. -/
theorem claim_C10_witness :
    (0 : Int) ≤ (⟨10, 1, 5, true, false, 1, 0⟩ : TimeSlot).booked_count ∧
    (⟨10, 1, 5, true, false, 1, 0⟩ : TimeSlot).booked_count ≤
      (⟨10, 1, 5, true, false, 1, 0⟩ : TimeSlot).max_patients :=
  claim_C10 c10_s0 [.upd 0 .cancelled] (by decide)
    ⟨10, 1, 5, true, false, 1, 0⟩ (by decide)

/-- C5: when at least one `'arrived'` appointment exists for the doctor
today, `advance_queue` selects the one with the lowest queue sequence and
sets it to `'in_consultation'`; when none exists it returns NULL (after a
notice, not an error) and leaves the whole state — queue pointer and every
appointment status — unchanged. -/
theorem claim_C5 (s : ClinicState) (d : Nat) :
    (advance_select s d = none → advance_queue s d = (s, none)) ∧
    (∀ a, advance_select s d = some a →
      a ∈ s.appointments ∧ a.doctor_id = d ∧ a.queue_date = s.today ∧
      a.status = .arrived ∧
      (∀ b ∈ s.appointments, b.doctor_id = d → b.queue_date = s.today →
        b.status = .arrived → a.queue_sequence ≤ b.queue_sequence) ∧
      (∀ b ∈ (advance_queue s d).1.appointments, b.id = a.id →
        b.status = .in_consultation)) := by
  constructor
  · intro h
    unfold advance_queue
    rw [h]
  · intro a h
    obtain ⟨hmem, hd, hq, hst, hmin⟩ := advance_select_spec h
    refine ⟨hmem, hd, hq, hst, hmin, ?_⟩
    intro b hb hbid
    have hq2 : (advance_queue s d).1 = (advance_apply s d a).1 := by
      unfold advance_queue
      rw [h]
    rw [hq2] at hb
    unfold advance_apply at hb
    dsimp only at hb
    obtain ⟨c, hc, hcb⟩ := List.mem_map.mp hb
    by_cases hcid : (c.id == a.id) = true
    · rw [if_pos hcid] at hcb
      rw [← hcb]
    · rw [if_neg hcid] at hcb
      rw [← hcb] at hbid
      exact absurd (by simp [hbid]) hcid

/-- C5 witness: on the one-arrived-appointment state, the second advance
finds an empty queue and changes nothing, and the selected appointment of
the first advance has today's date. -/
theorem claim_C5_witness :
    advance_queue (advance_queue c3_s0 1).1 1 = ((advance_queue c3_s0 1).1, none) ∧
    c3_appt.queue_date = c3_s0.today :=
  ⟨(claim_C5 ((advance_queue c3_s0 1).1) 1).1 (by decide),
   ((claim_C5 c3_s0 1).2 c3_appt (by decide)).2.2.1⟩

/-- C3 counterexample: the claim says that in every interleaving of two
concurrent `advance` calls for one doctor, the two calls never both select
and start the same appointment.  `advance_queue` takes no lock and its
`UPDATE` is unconditional, so in the READ COMMITTED interleaving in which
both `SELECT`s run before either `UPDATE` commits, both calls select
appointment 0 and both start it: its `actual_start_time` is written at tick
0 by the first call and overwritten at tick 1 by the second, with no
intervening complete. -/
theorem claim_C3_counterexample :
    c3_race.1 = some c3_appt ∧ c3_race.2.1 = some c3_appt ∧
    c3_race.2.2.1.appointments.map (fun a => (a.id, a.status, a.actual_start_time)) =
      [(0, .in_consultation, some 0)] ∧
    c3_race.2.2.2.appointments.map (fun a => (a.id, a.status, a.actual_start_time)) =
      [(0, .in_consultation, some 1)] := by
  refine ⟨by decide, by decide, by decide, by decide⟩

/-- C3 (amended): when the two `advance` calls are serialized — the second
call's `SELECT` runs after the first call's updates committed — they never
select the same appointment, because the first call left it
`'in_consultation'` and the selection only considers `'arrived'` rows; the
unlocked interleaving of the counterexample remains able to start one
appointment twice. -/
theorem claim_C3_amended (s : ClinicState) (d : Nat) (a a2 : Appointment)
    (h : advance_select s d = some a)
    (h2 : advance_select (advance_queue s d).1 d = some a2) :
    a2.id ≠ a.id := by
  intro heq
  have hq : (advance_queue s d).1 = (advance_apply s d a).1 := by
    unfold advance_queue
    rw [h]
  rw [hq] at h2
  obtain ⟨hmem2, _, _, hst2, _⟩ := advance_select_spec h2
  unfold advance_apply at hmem2
  dsimp only at hmem2
  obtain ⟨b, hb, hba⟩ := List.mem_map.mp hmem2
  by_cases hbid : (b.id == a.id) = true
  · rw [if_pos hbid] at hba
    rw [← hba] at hst2
    cases hst2
  · rw [if_neg hbid] at hba
    rw [← hba] at heq
    exact absurd (by simp [heq]) hbid

/-- C3 witness: with two arrived appointments, serialized advances select
sequence 1 then sequence 2, two different appointments. -/
theorem claim_C3_witness :
    advance_select c3b_s0 1 = some c3b_a0 ∧
    advance_select (advance_queue c3b_s0 1).1 1 = some c3b_a1 ∧
    c3b_a1.id ≠ c3b_a0.id :=
  ⟨by decide, by decide,
   claim_C3_amended c3b_s0 1 c3b_a0 c3b_a1 (by decide) (by decide)⟩

/-- C6 counterexample: the claim says reserve fails with `SlotNotFound` when
the slot belongs to a different doctor, with `SlotInPast` when the slot's
date is before today, and that each failure carries its own typed error.
Neither holds: (a) booking doctor 2's future-dated slot as doctor 1 succeeds
— `book_appointment` performs no ownership check; (b) booking a stale
past-dated slot does abort, but only because the trigger's slot UPDATE
violates `future_slots_only` — a bare constraint violation, the same
constructor every other constraint failure raises, not a typed
`SlotInPast`. -/
theorem claim_C6_counterexample :
    (∃ r, book_appointment c6_s0 1 1 10 = Except.ok r) ∧
    (∀ t ∈ c6_s0.time_slots, t.doctor_id ≠ 1) ∧
    book_appointment c6b_s0 1 2 10 = .error .constraint_violation ∧
    (∀ t ∈ c6b_s0.time_slots, t.slot_date < c6b_s0.today) :=
  ⟨⟨_, rfl⟩, by decide, by rfl, by decide⟩

/-- C6 (amended): `book_appointment` signals every failure it detects —
missing slot row, `is_available = false`, or `is_blocked = true` — with the
single error `'Slot is not available'`; the success path imposes no relation
between the caller's doctor id and the slot's owner, so a mismatched-doctor
reservation succeeds (booked under the caller's doctor); and a past-dated
slot is rejected only by the trigger's `future_slots_only` check, surfacing
as a bare constraint violation rather than a typed SlotInPast.  No distinct
SlotNotFound/SlotInPast/SlotUnavailable errors exist. -/
theorem claim_C6_amended :
    (∀ (s : ClinicState) (p d sid : Nat),
      s.time_slots.find? (fun t => t.id == sid) = none →
      book_appointment s p d sid = .error .slot_not_available) ∧
    (∀ (s : ClinicState) (p d sid : Nat) (t : TimeSlot),
      s.time_slots.find? (fun t2 => t2.id == sid) = some t →
      (t.is_available = false ∨ t.is_blocked = true) →
      book_appointment s p d sid = .error .slot_not_available) ∧
    (∀ (s : ClinicState) (p d sid : Nat) (t : TimeSlot) (q : String)
        (ts : List TimeSlot),
      s.time_slots.find? (fun t2 => t2.id == sid) = some t →
      t.is_available = true → t.is_blocked = false →
      generate_queue_number s.doctors s.appointments d t.slot_date = some q →
      appointment_insert_ok s.appointments
        { id := s.next_id, patient_id := p, doctor_id := d, time_slot_id := sid,
          queue_number := q, queue_sequence := digits_to_nat (trailing_digits q),
          queue_date := t.slot_date, status := .confirmed,
          created_date := s.today, actual_start_time := none } = true →
      slot_insert_trigger s.time_slots sid s.today = some ts →
      book_appointment s p d sid = .ok ({ s with
        appointments := s.appointments ++
          [{ id := s.next_id, patient_id := p, doctor_id := d, time_slot_id := sid,
             queue_number := q, queue_sequence := digits_to_nat (trailing_digits q),
             queue_date := t.slot_date, status := .confirmed,
             created_date := s.today, actual_start_time := none }],
        time_slots := ts, next_id := s.next_id + 1 },
        { id := s.next_id, patient_id := p, doctor_id := d, time_slot_id := sid,
          queue_number := q, queue_sequence := digits_to_nat (trailing_digits q),
          queue_date := t.slot_date, status := .confirmed,
          created_date := s.today, actual_start_time := none })) ∧
    (∀ (s : ClinicState) (p d sid : Nat) (t : TimeSlot) (q : String),
      s.time_slots.find? (fun t2 => t2.id == sid) = some t →
      t.is_available = true → t.is_blocked = false →
      generate_queue_number s.doctors s.appointments d t.slot_date = some q →
      appointment_insert_ok s.appointments
        { id := s.next_id, patient_id := p, doctor_id := d, time_slot_id := sid,
          queue_number := q, queue_sequence := digits_to_nat (trailing_digits q),
          queue_date := t.slot_date, status := .confirmed,
          created_date := s.today, actual_start_time := none } = true →
      t.slot_date < s.today →
      book_appointment s p d sid = .error .constraint_violation) := by
  refine ⟨?_, ?_, ?_, ?_⟩
  · intro s p d sid h
    unfold book_appointment
    rw [h]
  · intro s p d sid t hf h2
    unfold book_appointment
    rw [hf]
    dsimp only
    have hc : (!t.is_available || t.is_blocked) = true := by
      rcases h2 with h3 | h3
      · rw [h3]
        rfl
      · rw [h3]
        simp
    rw [if_pos hc]
  · intro s p d sid t q ts hf hav hbl hgen hins htrig
    unfold book_appointment
    rw [hf]
    dsimp only
    rw [if_neg (by rw [hav, hbl]; simp)]
    rw [hgen]
    dsimp only
    rw [if_pos hins, htrig]
  · intro s p d sid t q hf hav hbl hgen hins hpast
    have htrig : slot_insert_trigger s.time_slots sid s.today = none := by
      unfold slot_insert_trigger
      rw [if_neg]
      intro hall
      have h2 := List.all_eq_true.mp hall t (List.mem_of_find?_eq_some hf)
      have htid : (t.id == sid) = true := by simpa using List.find?_some hf
      rw [htid] at h2
      simp only [Bool.not_true, Bool.false_or, Bool.and_eq_true,
        decide_eq_true_eq] at h2
      exact absurd h2.1 (Nat.not_le_of_lt hpast)
    unfold book_appointment
    rw [hf]
    dsimp only
    rw [if_neg (by rw [hav, hbl]; simp)]
    rw [hgen]
    dsimp only
    rw [if_pos hins, htrig]

/-- C6 witness: a missing slot id and an already-unavailable slot both
produce the one 'Slot is not available' error. -/
theorem claim_C6_witness :
    book_appointment c1_s0 1 1 99 = .error .slot_not_available ∧
    book_appointment c3_s0 1 1 10 = .error .slot_not_available :=
  ⟨claim_C6_amended.1 c1_s0 1 1 99 (by decide),
   claim_C6_amended.2.1 c3_s0 1 1 10 ⟨10, 1, 5, false, false, 1, 1⟩
     (by decide) (Or.inl (by decide))⟩

/-- C7 counterexample: the claim says every cancellable appointment's cancel
commits (status set to cancelled, slot availability restored).  For the
confirmed appointment on the stale slot dated day 3, cancelled on day 6, the
release trigger's slot UPDATE violates `future_slots_only` and the whole
cancel transaction aborts: the committed state is unchanged — the status is
still confirmed and the slot not restored. -/
theorem claim_C7_counterexample :
    cancel_appointment c7b_s0 0 = c7b_s0 ∧
    c7b_s0.appointments.map (fun a => (a.id, a.status)) = [(0, .confirmed)] ∧
    c7b_s0.time_slots.map (fun t => (t.id, t.slot_date, t.is_available)) =
      [(10, 3, false)] ∧
    c7b_s0.today = 6 := by
  refine ⟨by decide, by decide, by decide, by decide⟩

/-- C7 (amended): cancelling a cancellable (pending/confirmed/arrived)
appointment whose referenced slot is not past-dated (on a past-dated slot
the release trigger's UPDATE violates `future_slots_only` and the whole
cancel aborts, as the counterexample shows) sets its status to cancelled;
the trigger decrements the referenced slot's `booked_count` and sets
`is_available` back to true (the decremented count is below capacity);
every appointment's queue sequence number and queue label — including the
cancelled one's — are left unchanged, and every other slot row is
untouched. -/
theorem claim_C7 (s : ClinicState) (i : Nat) (a : Appointment) (t : TimeSlot)
    (hfa : s.appointments.find? (fun b => b.id == i) = some a)
    (hst : a.status = .pending ∨ a.status = .confirmed ∨ a.status = .arrived)
    (hts : s.time_slots.find? (fun u => u.id == a.time_slot_id) = some t)
    (hok : ∀ u ∈ s.time_slots, u.id = a.time_slot_id →
      0 ≤ u.booked_count ∧ u.booked_count ≤ u.max_patients ∧
        s.today ≤ u.slot_date)
    (hcap : 1 ≤ t.max_patients) :
    (∀ b ∈ (cancel_appointment s i).appointments, b.id = i →
      b.status = .cancelled) ∧
    (cancel_appointment s i).time_slots.find? (fun u => u.id == a.time_slot_id) =
      some { t with is_available := true,
                    booked_count := max (t.booked_count - 1) 0 } ∧
    max (t.booked_count - 1) 0 < t.max_patients ∧
    (cancel_appointment s i).appointments.map
        (fun b => (b.id, b.queue_sequence, b.queue_number)) =
      s.appointments.map (fun b => (b.id, b.queue_sequence, b.queue_number)) ∧
    (∀ u ∈ (cancel_appointment s i).time_slots, u.id ≠ a.time_slot_id →
      u ∈ s.time_slots) := by
  have hrel : releases_slot a.status .cancelled = true := by
    rcases hst with h | h | h <;> rw [h] <;> rfl
  have hallrel : (s.time_slots.all (fun u => !(u.id == a.time_slot_id) ||
      (decide (s.today ≤ u.slot_date) &&
        decide (max (u.booked_count - 1) 0 ≤ u.max_patients)))) = true := by
    rw [List.all_eq_true]
    intro u hu
    show (!(u.id == a.time_slot_id) || (decide (s.today ≤ u.slot_date) &&
      decide (max (u.booked_count - 1) 0 ≤ u.max_patients))) = true
    by_cases huid : (u.id == a.time_slot_id) = true
    · obtain ⟨h0, hc, hdt⟩ := hok u hu (by simpa using huid)
      have hd : decide (max (u.booked_count - 1) 0 ≤ u.max_patients) = true := by
        simp only [decide_eq_true_eq]
        apply max_le
        · linarith
        · linarith
      rw [decide_eq_true hdt, Bool.true_and, hd, Bool.or_true]
    · have h2 : (u.id == a.time_slot_id) = false := by simpa using huid
      rw [h2]
      rfl
  have htrig : slot_release_trigger s.time_slots a.time_slot_id s.today =
      some (s.time_slots.map (fun u =>
        if u.id == a.time_slot_id then
          { u with is_available := true, booked_count := max (u.booked_count - 1) 0 }
        else u)) := by
    unfold slot_release_trigger
    rw [if_pos hallrel]
  have hcs : cancel_appointment s i = { s with
      appointments := s.appointments.map (fun b =>
        if b.id == i then { b with status := AppointmentStatus.cancelled } else b),
      time_slots := s.time_slots.map (fun u =>
        if u.id == a.time_slot_id then
          { u with is_available := true, booked_count := max (u.booked_count - 1) 0 }
        else u) } := by
    unfold cancel_appointment set_appointment_status
    rw [hfa]
    dsimp only
    rw [if_pos hrel, htrig]
  rw [hcs]
  refine ⟨?_, ?_, ?_, ?_, ?_⟩
  · intro b hb hbid
    obtain ⟨c, hc, hcb⟩ := List.mem_map.mp hb
    by_cases hcid : (c.id == i) = true
    · rw [if_pos hcid] at hcb
      rw [← hcb]
    · rw [if_neg hcid] at hcb
      rw [← hcb] at hbid
      exact absurd (by simp [hbid]) hcid
  · dsimp only
    rw [find?_slot_update s.time_slots a.time_slot_id
      (fun u => { u with is_available := true,
                         booked_count := max (u.booked_count - 1) 0 })
      (fun u => rfl), hts]
    rfl
  · obtain ⟨h0, hc, _⟩ := hok t (List.mem_of_find?_eq_some hts)
      (by simpa using List.find?_some hts)
    exact max_lt (by linarith) (by linarith)
  · dsimp only
    exact map_map_congr _ _ _ (fun b => by
      by_cases hb2 : (b.id == i) = true
      · rw [if_pos hb2]
      · rw [if_neg hb2])
  · intro u hu hune
    obtain ⟨v, hv, hvu⟩ := List.mem_map.mp hu
    by_cases hvid : (v.id == a.time_slot_id) = true
    · rw [if_pos hvid] at hvu
      exfalso
      apply hune
      rw [← hvu]
      simpa using hvid
    · rw [if_neg hvid] at hvu
      rw [← hvu]
      exact hv

/-- C7 witness: cancelling the confirmed appointment 0 of `c7_s0` restores
its slot and leaves every queue number and sequence unchanged. -/
theorem claim_C7_witness :
    (cancel_appointment c7_s0 0).appointments.map
        (fun b => (b.id, b.queue_sequence, b.queue_number)) =
      c7_s0.appointments.map (fun b => (b.id, b.queue_sequence, b.queue_number)) ∧
    (cancel_appointment c7_s0 0).time_slots.find? (fun u => u.id == 10) =
      some ⟨10, 1, 5, true, false, 1, 0⟩ := by
  have h := claim_C7 c7_s0 0 ⟨0, 1, 1, 10, "A001", 1, 5, .confirmed, 5, none⟩
    ⟨10, 1, 5, false, false, 1, 1⟩ (by decide) (by decide) (by decide)
    (by decide) (by decide)
  exact ⟨h.2.2.2.1, h.2.1⟩

/-- C4 counterexample: the claim says no intermediate state — slot marked
unavailable without an appointment — is ever observable by another
transaction.  The execution-plan handler runs `lock_time_slot` as its own
transaction and inserts the appointment in a second one; of the three
successive committed states of a successful run, the middle one has the slot
unavailable and no appointment referencing it. -/
theorem claim_C4_counterexample :
    c4_trace.map (fun st => orphaned_unavailable st.1 st.2 10) =
      [false, true, false] := by
  decide

/-- C4 (amended): the handler's reserve is not one atomic transaction.  When
the lock commits (slot found available and not past-dated), the reserve is a
lock transaction, an insert transaction, and — when the insert fails — a
compensating unlock transaction; the partial locked-without-appointment
state is observable in between (the counterexample), but after a failed
reserve the final committed state equals the initial one, since the
compensation restores `is_available` and `booked_count` was never touched.
On a stale past-dated available slot the lock's own UPDATE violates
`future_slots_only`, so the rpc aborts, the handler answers 409, and the
only committed state is the initial one. -/
theorem claim_C4_amended :
    (∀ (slots : List TimeSlot) (appointments : List Appointment)
        (today pid did slot_id : Nat) (qn : String) (qs aid : Nat)
        (t : TimeSlot) (b : Appointment),
      slots.find? (fun u => u.id == slot_id && u.is_available) = some t →
      (∀ u ∈ slots, u.id = slot_id → u.is_available = true) →
      (∀ u ∈ slots, u.id = slot_id → today ≤ u.slot_date) →
      b ∈ appointments → b.patient_id = pid → b.time_slot_id = slot_id →
      (book_handler slots appointments today pid did slot_id qn qs aid).2 =
        .error500 ∧
      (book_handler slots appointments today pid did slot_id qn qs
        aid).1.getLast? = some (slots, appointments)) ∧
    (∀ (slots : List TimeSlot) (appointments : List Appointment)
        (today pid did slot_id : Nat) (qn : String) (qs aid : Nat)
        (t : TimeSlot),
      slots.find? (fun u => u.id == slot_id && u.is_available) = some t →
      t.slot_date < today →
      book_handler slots appointments today pid did slot_id qn qs aid =
        ([(slots, appointments)], .conflict409)) := by
  constructor
  · intro slots appointments today pid did slot_id qn qs aid t b hfind hall
      hdate hb hbp hbt
    have hdall : (slots.all (fun u => !(u.id == slot_id) ||
        decide (today ≤ u.slot_date))) = true := by
      rw [List.all_eq_true]
      intro u hu
      show (!(u.id == slot_id) || decide (today ≤ u.slot_date)) = true
      by_cases huid : (u.id == slot_id) = true
      · rw [decide_eq_true (hdate u hu (by simpa using huid)), Bool.or_true]
      · have h2 : (u.id == slot_id) = false := by simpa using huid
        rw [h2]
        rfl
    have hlock : lock_time_slot slots slot_id today = some (t, slots.map (fun u =>
        if u.id == slot_id then { u with is_available := false } else u)) := by
      unfold lock_time_slot
      rw [hfind]
      dsimp only
      rw [if_pos hdall]
    have hfail : v1_insert_ok appointments
        { id := aid, patient_id := pid, doctor_id := did, time_slot_id := slot_id,
          queue_number := qn, queue_sequence := qs, queue_date := t.slot_date,
          status := .confirmed, created_date := t.slot_date,
          actual_start_time := none } = false :=
      v1_insert_fails hb hbp hbt
    unfold book_handler
    rw [hlock]
    dsimp only
    rw [if_neg (by rw [hfail]; simp)]
    refine ⟨rfl, ?_⟩
    show some (unlock_time_slot _ slot_id, appointments) = some (slots, appointments)
    rw [unlock_after_lock slots slot_id hall]
  · intro slots appointments today pid did slot_id qn qs aid t hfind hpast
    have hnall : ¬ ((slots.all (fun u => !(u.id == slot_id) ||
        decide (today ≤ u.slot_date))) = true) := by
      intro hall
      have h2 := List.all_eq_true.mp hall t (List.mem_of_find?_eq_some hfind)
      have hp : (t.id == slot_id && t.is_available) = true := by
        simpa using List.find?_some hfind
      have htid : (t.id == slot_id) = true := by
        simp only [Bool.and_eq_true] at hp
        exact hp.1
      rw [htid] at h2
      simp only [Bool.not_true, Bool.false_or, decide_eq_true_eq] at h2
      exact absurd h2 (Nat.not_le_of_lt hpast)
    have hlock : lock_time_slot slots slot_id today = none := by
      unfold lock_time_slot
      rw [hfind]
      dsimp only
      rw [if_neg hnall]
    unfold book_handler
    rw [hlock]

/-- C4 witness: with patient 1 already holding the future-dated slot 10, the
handler's insert fails and the compensating unlock leaves the slot list as
it was. -/
theorem claim_C4_witness :
    (book_handler c4_slots c4_appts 5 1 1 10 "A002" 2 8).2 = .error500 ∧
    (book_handler c4_slots c4_appts 5 1 1 10 "A002" 2 8).1.getLast? =
      some (c4_slots, c4_appts) :=
  claim_C4_amended.1 c4_slots c4_appts 5 1 1 10 "A002" 2 8
    ⟨10, 1, 5, true, false, 1, 0⟩ ⟨7, 1, 1, 10, "A001", 1, 5, .confirmed, 5, none⟩
    (by decide) (by decide) (by decide) (by decide) (by decide) (by decide)

/-- C1 counterexample: the claim says at most one non-cancelled appointment
ever references a given TimeSlot.  Reached by booking slot 10, marking the
appointment a no-show (the trigger frees the slot), and booking again: the
final state holds two appointments referencing slot 10 whose statuses —
no-show and confirmed — are both different from cancelled. -/
theorem claim_C1_counterexample :
    non_cancelled_refs c1_s3.appointments 10 = 2 ∧
    c1_s3.appointments.map (fun a => (a.time_slot_id, a.status)) =
      [(10, .no_show), (10, .confirmed)] := by
  refine ⟨by decide, by decide⟩

theorem at_most_one_success (s : ClinicState) (sid : Nat) (reqs : List (Nat × Nat)) :
    ((run_reservations s sid reqs).2.count none) ≤ 1 := by
  induction reqs generalizing s with
  | nil => simp [run_reservations]
  | cons r rest ih =>
    obtain ⟨p, d⟩ := r
    unfold run_reservations
    cases hb : book_appointment s p d sid with
    | error e =>
      dsimp only
      rw [List.count_cons_of_ne (by simp)]
      exact ih s
    | ok r2 =>
      obtain ⟨s2, a⟩ := r2
      dsimp only
      obtain ⟨slot, ts, _, _, _, _, _, _, _, _, hfind2⟩ := book_ok_inv hb
      rw [run_all_fail s2 sid _ rest hfind2 rfl]
      dsimp only
      rw [List.count_cons_self]
      have h0 : (rest.map (fun _ => some BookError.slot_not_available)).count
          (none : Option BookError) = 0 := by
        rw [List.count_eq_zero]
        simp
      rw [h0]

/-- C1 (amended): (1) for every serialization of every batch of reserve
calls against one slot (the `FOR UPDATE NOWAIT` row lock serializes the
transactions on one slot row), at most one call succeeds; (2) when moreover
the slot is available, unblocked, not past-dated, has capacity 1 with zero
booked, every caller's doctor exists and has no existing appointment rows,
and no appointment row of any status references the slot — so that the
winner's insert cannot collide with `unique_patient_slot` or
`unique_queue_number` (such collisions, including the C2 one, abort the
would-be winner and can leave a batch with zero successes) — exactly the
first call succeeds and every other call fails with the one
slot-unavailable error; (3) at every state reachable by the core's
operations from a state satisfying the reservation invariant, at most one
appointment whose status is neither cancelled nor no-show references any
given TimeSlot (a no-show, unlike the claim's "non-cancelled" wording,
releases the slot for rebooking, as the counterexample shows). -/
theorem claim_C1_amended :
    (∀ (s : ClinicState) (sid : Nat) (reqs : List (Nat × Nat)),
      ((run_reservations s sid reqs).2.count none) ≤ 1) ∧
    (∀ (s : ClinicState) (sid : Nat) (slot : TimeSlot) (p d : Nat)
        (rest : List (Nat × Nat)),
      s.time_slots.find? (fun t => t.id == sid) = some slot →
      (∀ u ∈ s.time_slots, u.id = sid → u = slot) →
      slot.is_available = true → slot.is_blocked = false →
      slot.booked_count = 0 → slot.max_patients = 1 →
      s.today ≤ slot.slot_date →
      (∀ r ∈ (p, d) :: rest, ∃ doc ∈ s.doctors, doc.id = r.2) →
      (∀ r ∈ (p, d) :: rest, ∀ a ∈ s.appointments, a.doctor_id ≠ r.2) →
      (∀ a ∈ s.appointments, a.time_slot_id ≠ sid) →
      (run_reservations s sid ((p, d) :: rest)).2 =
        none :: rest.map (fun _ => some BookError.slot_not_available)) ∧
    (∀ (s : ClinicState) (steps : List ApiStep), Inv s →
      ∀ t ∈ (api_run s steps).time_slots,
        active_refs (api_run s steps).appointments t.id ≤ 1) := by
  refine ⟨at_most_one_success, ?_, ?_⟩
  · intro s sid slot p d rest hf huniq hav hbl hcnt hcap hdate hdocs hdfresh hsfresh
    obtain ⟨s2, a, hok, hfind2⟩ := book_wins p d hf huniq hav hbl hcnt hcap hdate
      (hdocs (p, d) (List.mem_cons_self _ _))
      (fun a2 ha2 => hdfresh (p, d) (List.mem_cons_self _ _) a2 ha2) hsfresh
    unfold run_reservations
    rw [hok]
    dsimp only
    rw [run_all_fail s2 sid _ rest hfind2 rfl]
  · intro s steps hinv t ht
    exact (api_run_inv s steps hinv).at_most_one t ht

/-- C1 witness: three serialized reserve calls on the empty capacity-1
future-dated slot give one success and two slot-unavailable failures (so
also at most one success), and after booking, check-in and advance the slot
still carries a single active claim. -/
theorem claim_C1_witness :
    ((run_reservations c1_s0 10 [(1, 1), (2, 1), (3, 1)]).2.count none) ≤ 1 ∧
    (run_reservations c1_s0 10 [(1, 1), (2, 1), (3, 1)]).2 =
      [none, some BookError.slot_not_available, some BookError.slot_not_available] ∧
    active_refs (api_run c1_s0
      [.book 1 1 10, .check_in 0, .advance 1]).appointments 10 ≤ 1 := by
  refine ⟨claim_C1_amended.1 c1_s0 10 [(1, 1), (2, 1), (3, 1)], ?_, ?_⟩
  · have h := claim_C1_amended.2.1 c1_s0 10 ⟨10, 1, 5, true, false, 1, 0⟩ 1 1
      [(2, 1), (3, 1)] (by decide) (by decide) (by decide) (by decide)
      (by decide) (by decide) (by decide) (by decide) (by decide) (by decide)
    exact h
  · exact claim_C1_amended.2.2 c1_s0 [.book 1 1 10, .check_in 0, .advance 1]
      ⟨by decide, by decide, by decide, by decide, by decide⟩
      ⟨10, 1, 5, false, false, 1, 1⟩ (by decide)

end GFC
